import Mathlib

/-!
# serde::node (src/serde.h): a shallow embedding

The C++ `struct node` is a tagged tree value.  Its fields are embedded one for one:
`value_type`, `number_type`, the anonymous union, `string_value`, `object_value`
(`std::map<std::string, node>`) and `array_value` (`std::vector<node>`).

Modelling conventions.

* Member functions that mutate `*this` are functions `node → node` giving the state after
  the call; the ones that also return something give a pair or take a continuation.
* `std::vector<node>` is a `List node`.  `std::map<std::string, node>` is its in-order entry
  list `List (String × node)`; the map operations used by the source (`find`/`at`,
  `insert`, `operator[]`) are written on that list and keep it strictly ascending by key.
* The anonymous union is `Storage`: the member written last, with its value.  Reading a
  member other than the one stored has no defined result in C++ and is the fault
  `Fault.inactive_member` here.
* A `const node&` parameter is a `Ref`: another node, or the receiver itself.  A plain
  node is read as the former.  Key and position parameters are taken to be apart from
  the receiver's own members.
* The copy constructor and copy assignment move the union through its widest member
  (`ld(copy.ld)`).  On values this is taken to carry the stored member over unchanged.
* Integer widths are those of an LP64 platform (short 16, int 32, long and long long 64).
* Floating-point members are kept as bit patterns; their text and their conversion to
  integers belong to the C++ library and are parameters (`FloatLib`).
* An unchecked element access outside the vector (`array_value[i]`, `back()` on an empty
  vector) has no defined result in C++ and is the fault `Fault.out_of_range` here.  The
  exception thrown by `at` is a different thing: `Exception.out_of_range`.
-/

namespace serde

/-- The enum `NodeType` (serde.h:34). -/
inductive NodeType
  | STRING | ARRAY | OBJECT | NUMBER | BOOLEAN | NONE
deriving DecidableEq, Repr

/-- The enum `NodeNumberType` (serde.h:35). -/
inductive NodeNumberType
  | S | US | I | UI | L | UL | LL | ULL | F | D | LD | N
deriving DecidableEq, Repr

/-- The anonymous union of serde.h:128-141, as the member written last.  `unset` is the
union of a node whose constructor wrote no member. -/
inductive Storage
  | unset
  | s (v : Int)
  | us (v : Int)
  | i (v : Int)
  | ui (v : Int)
  | l (v : Int)
  | ul (v : Int)
  | ll (v : Int)
  | ull (v : Int)
  | f (bits : Nat)
  | d (bits : Nat)
  | ld (bits : Nat)
  | boolean_value (v : Bool)
deriving DecidableEq, Repr

/-- The struct `node` (serde.h:36-145). -/
structure node where
  value_type : NodeType
  number_type : NodeNumberType
  storage : Storage
  string_value : String
  object_value : List (String × node)
  array_value : List node

/-- Undefined behaviour that the embedding tracks. -/
inductive Fault
  | out_of_range
  | inactive_member
deriving DecidableEq, Repr

/-- The exception `std::out_of_range` thrown by `at`. -/
inductive Exception
  | out_of_range
deriving DecidableEq, Repr

deriving instance DecidableEq for Except

/-! ## std::map on the in-order entry list -/

/-- Lexicographic comparison of two character sequences, a proper initial segment
coming first. -/
def chars_lt : List Char → List Char → Bool
  | _, [] => false
  | [], _ :: _ => true
  | a :: as, b :: bs =>
    if a < b then true else if b < a then false else chars_lt as bs

/-- The comparison `std::less<std::string>` that orders the keys of `object_value`. -/
def key_lt (a b : String) : Bool := chars_lt a.data b.data

/-- Lookup of a key: `std::map::find` / `std::map::at`. -/
def map_find {α : Type} (k : String) : List (String × α) → Option α
  | [] => none
  | (k', v') :: rest => if k' = k then some v' else map_find k rest

/-- The call `std::map::insert` of the pair `(k, v)`: the entry is added at its place in
key order when the key is absent; a map that already holds the key is left as it is. -/
def map_insert {α : Type} (k : String) (v : α) : List (String × α) → List (String × α)
  | [] => [(k, v)]
  | (k', v') :: rest =>
    if key_lt k k' then (k, v) :: (k', v') :: rest
    else if key_lt k' k then (k', v') :: map_insert k v rest
    else (k', v') :: rest

/-- Assignment through the reference to the value held under `k`. -/
def map_set {α : Type} (k : String) (v : α) : List (String × α) → List (String × α)
  | [] => []
  | (k', v') :: rest => if k' = k then (k', v) :: rest else (k', v') :: map_set k v rest

/-- The std::map invariant: keys strictly ascending (hence unique). -/
def map_valid {α : Type} (m : List (String × α)) : Prop :=
  List.Pairwise (fun a b => key_lt a b = true) (m.map Prod.fst)

instance {α : Type} (m : List (String × α)) : Decidable (map_valid m) := by
  unfold map_valid; infer_instance

/-! ## Constructors (serde.h:153-210) -/

/-- The constructor `node()`: the member initialisers of serde.h:126-127, a union that
no one wrote, and empty containers. -/
def node.default : node :=
  { value_type := NodeType.NONE,
    number_type := NodeNumberType.N,
    storage := Storage.unset,
    string_value := "",
    object_value := [],
    array_value := [] }

/-- The constructor `node(const short&)`. -/
def node.of_short (v : Int) : node :=
  { node.default with value_type := NodeType.NUMBER, number_type := NodeNumberType.S, storage := Storage.s v }

/-- The constructor `node(const unsigned short&)`. -/
def node.of_ushort (v : Int) : node :=
  { node.default with value_type := NodeType.NUMBER, number_type := NodeNumberType.US, storage := Storage.us v }

/-- The constructor `node(const int&)`. -/
def node.of_int (v : Int) : node :=
  { node.default with value_type := NodeType.NUMBER, number_type := NodeNumberType.I, storage := Storage.i v }

/-- The constructor `node(const unsigned&)`. -/
def node.of_uint (v : Int) : node :=
  { node.default with value_type := NodeType.NUMBER, number_type := NodeNumberType.UI, storage := Storage.ui v }

/-- The constructor `node(const long&)`. -/
def node.of_long (v : Int) : node :=
  { node.default with value_type := NodeType.NUMBER, number_type := NodeNumberType.L, storage := Storage.l v }

/-- The constructor `node(const unsigned long&)`. -/
def node.of_ulong (v : Int) : node :=
  { node.default with value_type := NodeType.NUMBER, number_type := NodeNumberType.UL, storage := Storage.ul v }

/-- The constructor `node(const long long&)`. -/
def node.of_llong (v : Int) : node :=
  { node.default with value_type := NodeType.NUMBER, number_type := NodeNumberType.LL, storage := Storage.ll v }

/-- The constructor `node(const unsigned long long&)`. -/
def node.of_ullong (v : Int) : node :=
  { node.default with value_type := NodeType.NUMBER, number_type := NodeNumberType.ULL, storage := Storage.ull v }

/-- The constructor `node(const float&)`. -/
def node.of_float (bits : Nat) : node :=
  { node.default with value_type := NodeType.NUMBER, number_type := NodeNumberType.F, storage := Storage.f bits }

/-- The constructor `node(const double&)`. -/
def node.of_double (bits : Nat) : node :=
  { node.default with value_type := NodeType.NUMBER, number_type := NodeNumberType.D, storage := Storage.d bits }

/-- The constructor `node(const long double&)`. -/
def node.of_ldouble (bits : Nat) : node :=
  { node.default with value_type := NodeType.NUMBER, number_type := NodeNumberType.LD, storage := Storage.ld bits }

/-- The constructor `node(const bool&)`; `number_type` keeps its initialiser `N`. -/
def node.of_bool (v : Bool) : node :=
  { node.default with value_type := NodeType.BOOLEAN, storage := Storage.boolean_value v }

/-- The constructors `node(const char*)` and `node(const std::string&)`. -/
def node.of_string (v : String) : node :=
  { node.default with value_type := NodeType.STRING, string_value := v }

/-- The copy constructor `node(const node&)` (serde.h:204-210), member by member. -/
def node.copy (copy : node) : node :=
  { value_type := copy.value_type,
    number_type := copy.number_type,
    storage := copy.storage,
    string_value := copy.string_value,
    object_value := copy.object_value,
    array_value := copy.array_value }

/-! ## Assignment operators (serde.h:212-380) -/

/-- The operator `operator=(const short&)`. -/
def node.assign_short (n : node) (v : Int) : node :=
  { n with
    value_type := NodeType.NUMBER,
    number_type := NodeNumberType.S,
    string_value := "",
    object_value := [],
    array_value := [],
    storage := Storage.s v }

/-- The operator `operator=(const unsigned short&)`. -/
def node.assign_ushort (n : node) (v : Int) : node :=
  { n with
    value_type := NodeType.NUMBER,
    number_type := NodeNumberType.US,
    string_value := "",
    object_value := [],
    array_value := [],
    storage := Storage.us v }

/-- The operator `operator=(const int&)`. -/
def node.assign_int (n : node) (v : Int) : node :=
  { n with
    value_type := NodeType.NUMBER,
    number_type := NodeNumberType.I,
    string_value := "",
    object_value := [],
    array_value := [],
    storage := Storage.i v }

/-- The operator `operator=(const unsigned int&)`. -/
def node.assign_uint (n : node) (v : Int) : node :=
  { n with
    value_type := NodeType.NUMBER,
    number_type := NodeNumberType.UI,
    string_value := "",
    object_value := [],
    array_value := [],
    storage := Storage.ui v }

/-- The operator `operator=(const long&)`. -/
def node.assign_long (n : node) (v : Int) : node :=
  { n with
    value_type := NodeType.NUMBER,
    number_type := NodeNumberType.L,
    string_value := "",
    object_value := [],
    array_value := [],
    storage := Storage.l v }

/-- The operator `operator=(const unsigned long&)`. -/
def node.assign_ulong (n : node) (v : Int) : node :=
  { n with
    value_type := NodeType.NUMBER,
    number_type := NodeNumberType.UL,
    string_value := "",
    object_value := [],
    array_value := [],
    storage := Storage.ul v }

/-- The operator `operator=(const long long&)`. -/
def node.assign_llong (n : node) (v : Int) : node :=
  { n with
    value_type := NodeType.NUMBER,
    number_type := NodeNumberType.LL,
    string_value := "",
    object_value := [],
    array_value := [],
    storage := Storage.ll v }

/-- The operator `operator=(const unsigned long long&)`. -/
def node.assign_ullong (n : node) (v : Int) : node :=
  { n with
    value_type := NodeType.NUMBER,
    number_type := NodeNumberType.ULL,
    string_value := "",
    object_value := [],
    array_value := [],
    storage := Storage.ull v }

/-- The operator `operator=(const float&)`. -/
def node.assign_float (n : node) (bits : Nat) : node :=
  { n with
    value_type := NodeType.NUMBER,
    number_type := NodeNumberType.F,
    string_value := "",
    object_value := [],
    array_value := [],
    storage := Storage.f bits }

/-- The operator `operator=(const double&)`. -/
def node.assign_double (n : node) (bits : Nat) : node :=
  { n with
    value_type := NodeType.NUMBER,
    number_type := NodeNumberType.D,
    string_value := "",
    object_value := [],
    array_value := [],
    storage := Storage.d bits }

/-- The operator `operator=(const long double&)`. -/
def node.assign_ldouble (n : node) (bits : Nat) : node :=
  { n with
    value_type := NodeType.NUMBER,
    number_type := NodeNumberType.LD,
    string_value := "",
    object_value := [],
    array_value := [],
    storage := Storage.ld bits }

/-- The operator `operator=(const bool&)`. -/
def node.assign_bool (n : node) (v : Bool) : node :=
  { n with
    value_type := NodeType.BOOLEAN,
    number_type := NodeNumberType.N,
    string_value := "",
    object_value := [],
    array_value := [],
    storage := Storage.boolean_value v }

/-- The operators `operator=(const std::initializer_list<T>&)` and
`operator=(const std::vector<T>&)`: every element goes through the constructor `node(it)`,
given as `conv`, and is pushed at the end of the cleared vector. -/
def node.assign_list {T : Type} (n : node) (conv : T → node) (v : List T) : node :=
  { n with
    value_type := NodeType.ARRAY,
    number_type := NodeNumberType.N,
    object_value := [],
    array_value := v.foldl (fun acc it => acc ++ [conv it]) [],
    string_value := "" }

/-- The operator `operator=(const std::map<K, V>&)`: every entry is inserted into the
cleared map, its value through the constructor `node(it.second)`, given as `conv`. -/
def node.assign_map {V : Type} (n : node) (conv : V → node) (v : List (String × V)) : node :=
  { n with
    value_type := NodeType.OBJECT,
    number_type := NodeNumberType.N,
    object_value := v.foldl (fun acc it => map_insert it.1 (conv it.2) acc) [],
    array_value := [],
    string_value := "" }

/-- The operators `operator=(const char*)` and `operator=(const std::string&)`. -/
def node.assign_string (n : node) (v : String) : node :=
  { n with
    value_type := NodeType.STRING,
    number_type := NodeNumberType.N,
    object_value := [],
    array_value := [],
    string_value := v }

/-- The operator `operator=(const node&)`, member by member. -/
def node.assign_copy (n : node) (copy : node) : node :=
  { n with
    value_type := copy.value_type,
    number_type := copy.number_type,
    storage := copy.storage,
    string_value := copy.string_value,
    object_value := copy.object_value,
    array_value := copy.array_value }

/-! ## clear, size, push_back, insert (serde.h:470-531) -/

/-- The member `clear()`. -/
def node.clear (n : node) : node :=
  if n.value_type = NodeType.ARRAY then { n with array_value := [] }
  else if n.value_type = NodeType.OBJECT then { n with object_value := [] }
  else if n.value_type = NodeType.STRING then { n with string_value := "" }
  else n

/-- The member `size()`; a string counts its bytes. -/
def node.size (n : node) : Nat :=
  if n.value_type = NodeType.ARRAY then n.array_value.length
  else if n.value_type = NodeType.OBJECT then n.object_value.length
  else if n.value_type = NodeType.STRING then n.string_value.utf8ByteSize
  else 0

/-- What a `const node&` parameter of a member function refers to: a node apart from the
receiver, or the receiver `*this` itself (`n.push_back(n)`).  A reference into the
receiver's own containers is not modelled. -/
inductive Ref
  | other (x : node)
  | self

instance : Coe node Ref := ⟨Ref.other⟩

/-- The node that the parameter denotes at the moment it is read, `this` being the
receiver as it is at that moment. -/
def Ref.read (r : Ref) (this : node) : node :=
  match r with
  | Ref.other x => x
  | Ref.self => this

/-- The member `push_back(const node&)` (serde.h:488-498).  On an array
`std::vector::push_back` stores a copy of its argument as it is on entry.  Otherwise the
receiver is retagged and its string and map are cleared first, and only then is the
argument copied into the new vector. -/
def node.push_back (n : node) (x : Ref) : node :=
  if n.value_type = NodeType.ARRAY then
    { n with array_value := n.array_value ++ [(x.read n).copy] }
  else
    let n1 : node :=
      { n with
        value_type := NodeType.ARRAY,
        number_type := NodeNumberType.N,
        string_value := "",
        object_value := [] }
    { n1 with array_value := [(x.read n1).copy] }

/-- The member `insert(const node&)` (serde.h:499-509), statement for statement as
`push_back`. -/
def node.insert (n : node) (x : Ref) : node :=
  if n.value_type = NodeType.ARRAY then
    { n with array_value := n.array_value ++ [(x.read n).copy] }
  else
    let n1 : node :=
      { n with
        value_type := NodeType.ARRAY,
        number_type := NodeNumberType.N,
        string_value := "",
        object_value := [] }
    { n1 with array_value := [(x.read n1).copy] }

/-- The member `insert(const std::size_t&, const node&)` (serde.h:510-520).
`std::vector::insert` at `begin() + pos` needs `pos ≤ size()`; beyond that the position
is outside the vector; it stores a copy of its argument as it is on entry.  Otherwise
the receiver is retagged and cleared first, and only then is the argument copied. -/
def node.insert_at (n : node) (pos : Nat) (x : Ref) : Except Fault node :=
  if n.value_type = NodeType.ARRAY then
    if pos ≤ n.array_value.length then
      Except.ok
        { n with
          array_value := n.array_value.take pos ++ (x.read n).copy :: n.array_value.drop pos }
    else Except.error Fault.out_of_range
  else
    let n1 : node :=
      { n with
        value_type := NodeType.ARRAY,
        number_type := NodeNumberType.N,
        string_value := "",
        object_value := [] }
    Except.ok { n1 with array_value := [(x.read n1).copy] }

/-- The member `insert(const std::string&, const node&)` (serde.h:521-531).  On an
object the pair is built from the argument as it is on entry.  Otherwise the receiver is
retagged and its string and vector are cleared first, and only then is the argument
copied into the new map. -/
def node.insert_key (n : node) (key : String) (x : Ref) : node :=
  if n.value_type = NodeType.OBJECT then
    { n with object_value := map_insert key (x.read n).copy n.object_value }
  else
    let n1 : node :=
      { n with
        value_type := NodeType.OBJECT,
        number_type := NodeNumberType.N,
        string_value := "",
        array_value := [] }
    { n1 with object_value := [(key, (x.read n1).copy)] }

/-! ## Element access (serde.h:533-572) -/

/-- The element that `operator[](const std::size_t&)` refers to: `array_value[id]`,
unchecked. -/
def node.subscript_at (n : node) (id : Nat) : Except Fault node :=
  match n.array_value[id]? with
  | some c => Except.ok c
  | none => Except.error Fault.out_of_range

/-- Assignment of `c` through the reference that `operator[](const std::size_t&)` (or
`at`) returned for an element that exists. -/
def node.set_at (n : node) (id : Nat) (c : node) : node :=
  { n with array_value := n.array_value.set id c }

/-- The member `at(const std::size_t&)`: what it returns or throws, and the node after
the call.  `std::vector::at` throws `std::out_of_range` for `id ≥ size()`. -/
def node.at (n : node) (id : Nat) : Except Exception node × node :=
  if n.value_type = NodeType.ARRAY then
    match n.array_value[id]? with
    | some c => (Except.ok c, n)
    | none => (Except.error Exception.out_of_range, n)
  else (Except.error Exception.out_of_range, n)

/-- The node after `operator[](const std::string&)` (and the `const char*` overload):
retagged when it was no object, and `object_value[key]` default-constructs the entry when
the key is absent. -/
def node.subscript (n : node) (key : String) : node :=
  let n1 : node :=
    if n.value_type ≠ NodeType.OBJECT then
      { n with
        value_type := NodeType.OBJECT,
        number_type := NodeNumberType.N,
        string_value := "",
        array_value := [] }
    else n
  { n1 with object_value := map_insert key node.default n1.object_value }

/-- The element that `operator[](const std::string&)` refers to, read after the call. -/
def node.subscript_ref (n : node) (key : String) : Option node :=
  map_find key (n.subscript key).object_value

/-- The statement `n[key] OP`, where `OP` is any operation applied through the returned
reference (an assignment `= v`, a further `[k]`, `push_back`, ...), given as the state
change `f` of the element. -/
def node.modify (n : node) (key : String) (f : node → node) : node :=
  let n1 := n.subscript key
  match map_find key n1.object_value with
  | some c => { n1 with object_value := map_set key (f c) n1.object_value }
  | none => n1

/-- The member `at(const std::string&)`: what it returns or throws, and the node after
the call.  `std::map::at` throws `std::out_of_range` for an absent key. -/
def node.at_key (n : node) (key : String) : Except Exception node × node :=
  if n.value_type = NodeType.OBJECT then
    match map_find key n.object_value with
    | some c => (Except.ok c, n)
    | none => (Except.error Exception.out_of_range, n)
  else (Except.error Exception.out_of_range, n)

/-! ## Numeric reads (serde.h:410-460) -/

/-- An integer type: its width in bits and its signedness. -/
structure IntType where
  bits : Nat
  signed : Bool
deriving DecidableEq, Repr

/-- The type `short`. -/
def IntType.short : IntType := { bits := 16, signed := true }
/-- The type `unsigned short`. -/
def IntType.ushort : IntType := { bits := 16, signed := false }
/-- The type `int`. -/
def IntType.int : IntType := { bits := 32, signed := true }
/-- The type `unsigned int`. -/
def IntType.uint : IntType := { bits := 32, signed := false }
/-- The type `long`. -/
def IntType.long : IntType := { bits := 64, signed := true }
/-- The type `unsigned long`. -/
def IntType.ulong : IntType := { bits := 64, signed := false }
/-- The type `long long`. -/
def IntType.llong : IntType := { bits := 64, signed := true }
/-- The type `unsigned long long`. -/
def IntType.ullong : IntType := { bits := 64, signed := false }

/-- The values of an integer type. -/
def IntType.holds (T : IntType) (v : Int) : Prop :=
  if T.signed then -(2 : Int) ^ (T.bits - 1) ≤ v ∧ v < (2 : Int) ^ (T.bits - 1)
  else 0 ≤ v ∧ v < (2 : Int) ^ T.bits

instance (T : IntType) (v : Int) : Decidable (T.holds v) := by
  unfold IntType.holds; split <;> infer_instance

/-- Integral conversion `static_cast<T>(v)`: the value modulo `2 ^ bits`, read in the
signedness of `T`. -/
def static_cast (T : IntType) (v : Int) : Int :=
  let m : Int := (2 : Int) ^ T.bits
  let r := v % m
  if T.signed && decide (m ≤ 2 * r) then r - m else r

/-- What the C++ library does with floating-point values: the text `operator<<` writes
for a `float`, `double` or `long double` (named by its number kind) of the given bit
pattern, and `static_cast<T>` of such a value to an integer type. -/
structure FloatLib where
  text : NodeNumberType → Nat → String
  to_integer : NodeNumberType → Nat → IntType → Int

/-- The member `get_number<T>()` for an integer type `T`: the switch on `number_type`,
each case reading its own member of the union. -/
def node.get_number (n : node) (fl : FloatLib) (T : IntType) : Except Fault Int :=
  match n.number_type, n.storage with
  | NodeNumberType.S, Storage.s v => Except.ok (static_cast T v)
  | NodeNumberType.US, Storage.us v => Except.ok (static_cast T v)
  | NodeNumberType.I, Storage.i v => Except.ok (static_cast T v)
  | NodeNumberType.UI, Storage.ui v => Except.ok (static_cast T v)
  | NodeNumberType.L, Storage.l v => Except.ok (static_cast T v)
  | NodeNumberType.UL, Storage.ul v => Except.ok (static_cast T v)
  | NodeNumberType.LL, Storage.ll v => Except.ok (static_cast T v)
  | NodeNumberType.ULL, Storage.ull v => Except.ok (static_cast T v)
  | NodeNumberType.F, Storage.f b => Except.ok (fl.to_integer NodeNumberType.F b T)
  | NodeNumberType.D, Storage.d b => Except.ok (fl.to_integer NodeNumberType.D b T)
  | NodeNumberType.LD, Storage.ld b => Except.ok (fl.to_integer NodeNumberType.LD b T)
  | NodeNumberType.N, _ => Except.ok 0
  | _, _ => Except.error Fault.inactive_member

/-- The member `get_int()`. -/
def node.get_int (n : node) (fl : FloatLib) : Except Fault Int :=
  n.get_number fl IntType.int

/-- The member `get_bool()`. -/
def node.get_bool (n : node) : Except Fault Bool :=
  if n.value_type = NodeType.BOOLEAN then
    match n.storage with
    | Storage.boolean_value b => Except.ok b
    | _ => Except.error Fault.inactive_member
  else Except.ok false

/-- The member `get_string()`. -/
def node.get_string (n : node) : String :=
  if n.value_type = NodeType.STRING then n.string_value else ""

/-! ## Text emission (serde.h:574-625)

The output stream is the text written so far.  Of its formatting state the flag
`std::boolalpha` is a parameter; the rest is the default state (decimal integers, no
field width).  The elements of a container are emitted
by the recursive calls `out << n.array_value[i]` and `out << it->second`; the loops below
take the results of those calls in a list, one per element, and consume the result for
element `i` where the source makes the call. -/

/-- The inner switch of `operator<<` (serde.h:583-608): the text of a number. -/
def emit_number (fl : FloatLib) (number_type : NodeNumberType) (storage : Storage) :
    Except Fault String :=
  match number_type, storage with
  | NodeNumberType.S, Storage.s v => Except.ok (toString v)
  | NodeNumberType.US, Storage.us v => Except.ok (toString v)
  | NodeNumberType.I, Storage.i v => Except.ok (toString v)
  | NodeNumberType.UI, Storage.ui v => Except.ok (toString v)
  | NodeNumberType.L, Storage.l v => Except.ok (toString v)
  | NodeNumberType.UL, Storage.ul v => Except.ok (toString v)
  | NodeNumberType.LL, Storage.ll v => Except.ok (toString v)
  | NodeNumberType.ULL, Storage.ull v => Except.ok (toString v)
  | NodeNumberType.F, Storage.f b => Except.ok (fl.text NodeNumberType.F b)
  | NodeNumberType.D, Storage.d b => Except.ok (fl.text NodeNumberType.D b)
  | NodeNumberType.LD, Storage.ld b => Except.ok (fl.text NodeNumberType.LD b)
  | NodeNumberType.N, _ => Except.ok "NUMBER"
  | _, _ => Except.error Fault.inactive_member

/-- The case `BOOLEAN` of `operator<<`: `out << n.boolean_value` goes through the
caller's stream, which writes `1` or `0`, or the words `true` and `false` when its flag
`std::boolalpha` is set. -/
def emit_boolean (boolalpha : Bool) (storage : Storage) : Except Fault String :=
  match storage with
  | Storage.boolean_value b =>
    Except.ok (if boolalpha then (if b then "true" else "false") else (if b then "1" else "0"))
  | _ => Except.error Fault.inactive_member

/-- The largest `std::size_t` plus one. -/
def SIZE_MOD : Nat := 2 ^ 64

/-- The loop `for (i = 0; i < n.array_value.size() - 1; ++i)` of serde.h:611-613, with
`count` iterations still to run from index `i`: each one reads `array_value[i]`
unchecked, writes it and a comma. -/
def array_loop (parts : List (Except Fault String)) :
    (count : Nat) → (i : Nat) → (out : String) → Except Fault String
  | 0, _, out => Except.ok out
  | count + 1, i, out =>
    match parts[i]? with
    | none => Except.error Fault.out_of_range
    | some x =>
      match x with
      | Except.error e => Except.error e
      | Except.ok t => array_loop parts count (i + 1) (out ++ t ++ ",")

/-- The case `ARRAY` of `operator<<` (serde.h:609-614).  The loop bound is
`size() - 1` in `std::size_t`, that is `2 ^ 64 - 1 + size()` modulo `2 ^ 64`; after the
loop `back()` is written, then `]`. -/
def emit_array (parts : List (Except Fault String)) : Except Fault String :=
  match array_loop parts ((SIZE_MOD - 1 + parts.length) % SIZE_MOD) 0 "[" with
  | Except.error e => Except.error e
  | Except.ok out =>
    match parts.getLast? with
    | none => Except.error Fault.out_of_range
    | some x =>
      match x with
      | Except.error e => Except.error e
      | Except.ok t => Except.ok (out ++ t ++ "]")

/-- The loop of serde.h:617-620 over the entries from `begin()` to `end()`: key in
quotes, colon, value, and a comma unless the entry is the last one. -/
def object_loop : List (String × Except Fault String) → String → Except Fault String
  | [], out => Except.ok out
  | (k, x) :: rest, out =>
    match x with
    | Except.error e => Except.error e
    | Except.ok t =>
      let out1 := out ++ "\"" ++ k ++ "\":" ++ t
      object_loop rest (if rest.isEmpty then out1 else out1 ++ ",")

/-- The case `OBJECT` of `operator<<` (serde.h:615-621). -/
def emit_object (entries : List (String × Except Fault String)) : Except Fault String :=
  match object_loop entries "\x7b" with
  | Except.error e => Except.error e
  | Except.ok out => Except.ok (out ++ "\x7d")

mutual
/-- The operator `operator<<(std::ostream&, const node&)`: the text written for `n` on a
stream whose flag `std::boolalpha` is `boolalpha`, or the undefined behaviour met on the
way. -/
def emit (boolalpha : Bool) (fl : FloatLib) : node → Except Fault String
  | ⟨value_type, number_type, storage, string_value, object_value, array_value⟩ =>
    match value_type with
    | NodeType.NONE => Except.ok "null"
    | NodeType.STRING => Except.ok ("\"" ++ string_value ++ "\"")
    | NodeType.BOOLEAN => emit_boolean boolalpha storage
    | NodeType.NUMBER => emit_number fl number_type storage
    | NodeType.ARRAY => emit_array (emit_elements boolalpha fl array_value)
    | NodeType.OBJECT => emit_object (emit_entries boolalpha fl object_value)
/-- The recursive calls `out << n.array_value[i]`, one per element. -/
def emit_elements (boolalpha : Bool) (fl : FloatLib) : List node → List (Except Fault String)
  | [] => []
  | x :: rest => emit boolalpha fl x :: emit_elements boolalpha fl rest
/-- The recursive calls `out << it->second`, one per entry, with the entry's key. -/
def emit_entries (boolalpha : Bool) (fl : FloatLib) :
    List (String × node) → List (String × Except Fault String)
  | [] => []
  | (k, x) :: rest => (k, emit boolalpha fl x) :: emit_entries boolalpha fl rest
end

/-! ## Nodes built by the public operations -/

/-- The nodes a program obtains from the constructors by the public member functions.
Operations applied through a reference to an element (`n[key] = ...`, `n.at(i) = ...`)
are the rules `set_key` and `set_at`: the element is replaced by a built node.  The
rules ending in `_self` are the calls whose node argument is the receiver itself. -/
inductive Built : node → Prop
  | default : Built node.default
  | of_short (v : Int) : Built (node.of_short v)
  | of_ushort (v : Int) : Built (node.of_ushort v)
  | of_int (v : Int) : Built (node.of_int v)
  | of_uint (v : Int) : Built (node.of_uint v)
  | of_long (v : Int) : Built (node.of_long v)
  | of_ulong (v : Int) : Built (node.of_ulong v)
  | of_llong (v : Int) : Built (node.of_llong v)
  | of_ullong (v : Int) : Built (node.of_ullong v)
  | of_float (bits : Nat) : Built (node.of_float bits)
  | of_double (bits : Nat) : Built (node.of_double bits)
  | of_ldouble (bits : Nat) : Built (node.of_ldouble bits)
  | of_bool (v : Bool) : Built (node.of_bool v)
  | of_string (v : String) : Built (node.of_string v)
  | copy {c : node} : Built c → Built c.copy
  | assign_short (v : Int) {n : node} : Built n → Built (n.assign_short v)
  | assign_ushort (v : Int) {n : node} : Built n → Built (n.assign_ushort v)
  | assign_int (v : Int) {n : node} : Built n → Built (n.assign_int v)
  | assign_uint (v : Int) {n : node} : Built n → Built (n.assign_uint v)
  | assign_long (v : Int) {n : node} : Built n → Built (n.assign_long v)
  | assign_ulong (v : Int) {n : node} : Built n → Built (n.assign_ulong v)
  | assign_llong (v : Int) {n : node} : Built n → Built (n.assign_llong v)
  | assign_ullong (v : Int) {n : node} : Built n → Built (n.assign_ullong v)
  | assign_float (bits : Nat) {n : node} : Built n → Built (n.assign_float bits)
  | assign_double (bits : Nat) {n : node} : Built n → Built (n.assign_double bits)
  | assign_ldouble (bits : Nat) {n : node} : Built n → Built (n.assign_ldouble bits)
  | assign_bool (v : Bool) {n : node} : Built n → Built (n.assign_bool v)
  | assign_list {T : Type} (conv : T → node) (v : List T) {n : node} :
      (∀ t ∈ v, Built (conv t)) → Built n → Built (n.assign_list conv v)
  | assign_map {V : Type} (conv : V → node) (v : List (String × V)) {n : node} :
      (∀ p ∈ v, Built (conv p.2)) → Built n → Built (n.assign_map conv v)
  | assign_string (v : String) {n : node} : Built n → Built (n.assign_string v)
  | assign_copy {c n : node} : Built c → Built n → Built (n.assign_copy c)
  | clear {n : node} : Built n → Built n.clear
  | push_back {x n : node} : Built x → Built n → Built (n.push_back x)
  | insert {x n : node} : Built x → Built n → Built (n.insert x)
  | insert_at (pos : Nat) {x n r : node} :
      Built x → Built n → n.insert_at pos x = Except.ok r → Built r
  | insert_key (key : String) {x n : node} : Built x → Built n → Built (n.insert_key key x)
  | push_back_self {n : node} : Built n → Built (n.push_back Ref.self)
  | insert_self {n : node} : Built n → Built (n.insert Ref.self)
  | insert_at_self (pos : Nat) {n r : node} :
      Built n → n.insert_at pos Ref.self = Except.ok r → Built r
  | insert_key_self (key : String) {n : node} : Built n → Built (n.insert_key key Ref.self)
  | subscript (key : String) {n : node} : Built n → Built (n.subscript key)
  | set_key (key : String) {c n : node} :
      Built c → Built n → (map_find key n.object_value).isSome = true →
      Built { n with object_value := map_set key c n.object_value }
  | set_at (id : Nat) {c n : node} :
      Built c → Built n → id < n.array_value.length → Built (n.set_at id c)

/-- Every payload that the tag does not select is empty. -/
def node.inactive_empty (n : node) : Prop :=
  (n.value_type ≠ NodeType.STRING → n.string_value = "") ∧
  (n.value_type ≠ NodeType.OBJECT → n.object_value = []) ∧
  (n.value_type ≠ NodeType.ARRAY → n.array_value = [])

/-! ## Reference text for the container cases -/

/-- The strings of a list joined by single commas, none at the end. -/
def comma_joined : List String → String
  | [] => ""
  | [a] => a
  | a :: b :: rest => a ++ "," ++ comma_joined (b :: rest)

/-- The texts of a list, each followed by a comma. -/
def commas : List String → String
  | [] => ""
  | t :: ts => t ++ "," ++ commas ts

/-- One member of an object: the key in double quotes, a colon, the value's text. -/
def member_text (k t : String) : String := "\"" ++ k ++ "\":" ++ t

/-- The texts of a list of emissions in order, or the first fault among them. -/
def collect : List (Except Fault String) → Except Fault (List String)
  | [] => Except.ok []
  | Except.error e :: _ => Except.error e
  | Except.ok t :: rest =>
    match collect rest with
    | Except.error e => Except.error e
    | Except.ok ts => Except.ok (t :: ts)

mutual
/-- Every array that emission visits from `n` down, `n` itself included, has at least one
element (and a size that `std::size_t` counts). -/
def arrays_nonempty : node → Prop
  | ⟨value_type, _, _, _, object_value, array_value⟩ =>
    match value_type with
    | NodeType.ARRAY =>
      (array_value ≠ [] ∧ array_value.length < SIZE_MOD) ∧ elements_nonempty array_value
    | NodeType.OBJECT => entries_nonempty object_value
    | _ => True
/-- The predicate `arrays_nonempty` on every element of a vector. -/
def elements_nonempty : List node → Prop
  | [] => True
  | x :: rest => arrays_nonempty x ∧ elements_nonempty rest
/-- The predicate `arrays_nonempty` on every value of a map. -/
def entries_nonempty : List (String × node) → Prop
  | [] => True
  | (_, x) :: rest => arrays_nonempty x ∧ entries_nonempty rest
end

/-! ## The template `get_number<T>` at any arithmetic type, and the conversion operators -/

/-- An arithmetic type `T` as `get_number<T>` uses it: `static_cast<T>` of an integer
value, `static_cast<T>` of a floating-point member (named by its number kind, given by
its bit pattern), and the value-initialised `T()`. -/
structure Arithmetic (α : Type) where
  cast_integer : Int → α
  cast_floating : NodeNumberType → Nat → α
  zero : α

/-- An integer type as an arithmetic type. -/
def IntType.arithmetic (fl : FloatLib) (T : IntType) : Arithmetic Int :=
  { cast_integer := static_cast T,
    cast_floating := fun k b => fl.to_integer k b T,
    zero := 0 }

/-- The type `bool` as an arithmetic type; the conversion of a floating-point value
(`x != 0`) is the library's, given as `nonzero`. -/
def Arithmetic.bool (nonzero : NodeNumberType → Nat → Bool) : Arithmetic Bool :=
  { cast_integer := fun v => decide (v ≠ 0),
    cast_floating := nonzero,
    zero := false }

/-- The member template `get_number<T>()` (serde.h:410-439) at an arithmetic type `T`. -/
def node.get_number_as {α : Type} (n : node) (T : Arithmetic α) : Except Fault α :=
  match n.number_type, n.storage with
  | NodeNumberType.S, Storage.s v => Except.ok (T.cast_integer v)
  | NodeNumberType.US, Storage.us v => Except.ok (T.cast_integer v)
  | NodeNumberType.I, Storage.i v => Except.ok (T.cast_integer v)
  | NodeNumberType.UI, Storage.ui v => Except.ok (T.cast_integer v)
  | NodeNumberType.L, Storage.l v => Except.ok (T.cast_integer v)
  | NodeNumberType.UL, Storage.ul v => Except.ok (T.cast_integer v)
  | NodeNumberType.LL, Storage.ll v => Except.ok (T.cast_integer v)
  | NodeNumberType.ULL, Storage.ull v => Except.ok (T.cast_integer v)
  | NodeNumberType.F, Storage.f b => Except.ok (T.cast_floating NodeNumberType.F b)
  | NodeNumberType.D, Storage.d b => Except.ok (T.cast_floating NodeNumberType.D b)
  | NodeNumberType.LD, Storage.ld b => Except.ok (T.cast_floating NodeNumberType.LD b)
  | NodeNumberType.N, _ => Except.ok T.zero
  | _, _ => Except.error Fault.inactive_member

/-- The conversion `operator bool()` (serde.h:401-404). -/
def node.operator_bool (n : node) : Except Fault Bool :=
  if n.value_type = NodeType.BOOLEAN then
    match n.storage with
    | Storage.boolean_value b => Except.ok b
    | _ => Except.error Fault.inactive_member
  else Except.ok false

/-- The conversion `operator std::string()` (serde.h:405-408). -/
def node.operator_string (n : node) : String :=
  if n.value_type = NodeType.STRING then n.string_value else ""

/-! ## The scalar overloads taken together -/

/-- The eight integer types that have a constructor and an assignment operator. -/
inductive IntKind
  | short | ushort | int | uint | long | ulong | llong | ullong
deriving DecidableEq, Repr

/-- The integer type of a kind. -/
def IntKind.type : IntKind → IntType
  | IntKind.short => IntType.short
  | IntKind.ushort => IntType.ushort
  | IntKind.int => IntType.int
  | IntKind.uint => IntType.uint
  | IntKind.long => IntType.long
  | IntKind.ulong => IntType.ulong
  | IntKind.llong => IntType.llong
  | IntKind.ullong => IntType.ullong

/-- The number kind that the overload for an integer type records. -/
def IntKind.number_type : IntKind → NodeNumberType
  | IntKind.short => NodeNumberType.S
  | IntKind.ushort => NodeNumberType.US
  | IntKind.int => NodeNumberType.I
  | IntKind.uint => NodeNumberType.UI
  | IntKind.long => NodeNumberType.L
  | IntKind.ulong => NodeNumberType.UL
  | IntKind.llong => NodeNumberType.LL
  | IntKind.ullong => NodeNumberType.ULL

/-- The union member that the overload for an integer type writes. -/
def IntKind.member : IntKind → Int → Storage
  | IntKind.short, v => Storage.s v
  | IntKind.ushort, v => Storage.us v
  | IntKind.int, v => Storage.i v
  | IntKind.uint, v => Storage.ui v
  | IntKind.long, v => Storage.l v
  | IntKind.ulong, v => Storage.ul v
  | IntKind.llong, v => Storage.ll v
  | IntKind.ullong, v => Storage.ull v

/-- Overload resolution among the integer constructors. -/
def node.of_integer : IntKind → Int → node
  | IntKind.short, v => node.of_short v
  | IntKind.ushort, v => node.of_ushort v
  | IntKind.int, v => node.of_int v
  | IntKind.uint, v => node.of_uint v
  | IntKind.long, v => node.of_long v
  | IntKind.ulong, v => node.of_ulong v
  | IntKind.llong, v => node.of_llong v
  | IntKind.ullong, v => node.of_ullong v

/-- Overload resolution among the integer assignment operators. -/
def node.assign_integer (n : node) : IntKind → Int → node
  | IntKind.short, v => n.assign_short v
  | IntKind.ushort, v => n.assign_ushort v
  | IntKind.int, v => n.assign_int v
  | IntKind.uint, v => n.assign_uint v
  | IntKind.long, v => n.assign_long v
  | IntKind.ulong, v => n.assign_ulong v
  | IntKind.llong, v => n.assign_llong v
  | IntKind.ullong, v => n.assign_ullong v

/-- The right-hand side of a scalar assignment: a value of one of the eleven numeric
types, a boolean, or a string. -/
inductive Scalar
  | integer (K : IntKind) (v : Int)
  | float (bits : Nat)
  | double (bits : Nat)
  | ldouble (bits : Nat)
  | bool (v : Bool)
  | string (v : String)

/-- Overload resolution among the scalar assignment operators. -/
def node.assign_scalar (n : node) : Scalar → node
  | Scalar.integer K v => n.assign_integer K v
  | Scalar.float bits => n.assign_float bits
  | Scalar.double bits => n.assign_double bits
  | Scalar.ldouble bits => n.assign_ldouble bits
  | Scalar.bool v => n.assign_bool v
  | Scalar.string v => n.assign_string v

/-- The tag that a scalar assignment leaves. -/
def Scalar.tag : Scalar → NodeType
  | Scalar.bool _ => NodeType.BOOLEAN
  | Scalar.string _ => NodeType.STRING
  | _ => NodeType.NUMBER

/-! ## Agreement of tag, number kind and union -/

/-- The number kind whose member the union holds; `N` when it holds no number. -/
def Storage.kind : Storage → NodeNumberType
  | Storage.s _ => NodeNumberType.S
  | Storage.us _ => NodeNumberType.US
  | Storage.i _ => NodeNumberType.I
  | Storage.ui _ => NodeNumberType.UI
  | Storage.l _ => NodeNumberType.L
  | Storage.ul _ => NodeNumberType.UL
  | Storage.ll _ => NodeNumberType.LL
  | Storage.ull _ => NodeNumberType.ULL
  | Storage.f _ => NodeNumberType.F
  | Storage.d _ => NodeNumberType.D
  | Storage.ld _ => NodeNumberType.LD
  | Storage.unset => NodeNumberType.N
  | Storage.boolean_value _ => NodeNumberType.N

/-- A number has a number kind and holds the member of that kind; anything else has the
kind `N`; a boolean holds the member `boolean_value`. -/
def node.scalar_agrees (n : node) : Prop :=
  (n.value_type = NodeType.NUMBER →
    n.number_type ≠ NodeNumberType.N ∧ n.storage.kind = n.number_type) ∧
  (n.value_type ≠ NodeType.NUMBER → n.number_type = NodeNumberType.N) ∧
  (n.value_type = NodeType.BOOLEAN → ∃ b, n.storage = Storage.boolean_value b)

/-! ## Descendants, and the case that `operator<<` takes -/

/-- The nodes of the tree below `root`, `root` included: the elements of `array_value`
and the values of `object_value`, at any depth. -/
inductive Descendant (root : node) : node → Prop
  | self : Descendant root root
  | element {p c : node} : Descendant root p → c ∈ p.array_value → Descendant root c
  | entry {p c : node} {k : String} :
      Descendant root p → (k, c) ∈ p.object_value → Descendant root c

/-- The cases of the two switches of `operator<<` (serde.h:575-624); the two `default:`
cases are the ones that write `NUMBER` and `NODE`. -/
inductive EmitCase
  | null | string | boolean | number | number_default | array | object | node_default
deriving DecidableEq, Repr

/-- The case of `operator<<` that is taken for `n`: the outer switch on `value_type`
and, for a number, the inner switch on `number_type`, whose `default:` is reached with
`N`.  `NodeType` has no value outside the six cases of the outer switch. -/
def emit_case (n : node) : EmitCase :=
  match n.value_type with
  | NodeType.NONE => EmitCase.null
  | NodeType.STRING => EmitCase.string
  | NodeType.BOOLEAN => EmitCase.boolean
  | NodeType.NUMBER =>
    match n.number_type with
    | NodeNumberType.N => EmitCase.number_default
    | _ => EmitCase.number
  | NodeType.ARRAY => EmitCase.array
  | NodeType.OBJECT => EmitCase.object

/-- The text that `operator<<` writes for the member that the union holds, on a stream
whose flag `std::boolalpha` is `boolalpha`. -/
def Storage.text (boolalpha : Bool) (fl : FloatLib) : Storage → String
  | Storage.s v => toString v
  | Storage.us v => toString v
  | Storage.i v => toString v
  | Storage.ui v => toString v
  | Storage.l v => toString v
  | Storage.ul v => toString v
  | Storage.ll v => toString v
  | Storage.ull v => toString v
  | Storage.f b => fl.text NodeNumberType.F b
  | Storage.d b => fl.text NodeNumberType.D b
  | Storage.ld b => fl.text NodeNumberType.LD b
  | Storage.boolean_value b =>
    if boolalpha then (if b then "true" else "false") else (if b then "1" else "0")
  | Storage.unset => ""

/-- The elements and the values of `n` all satisfy `P`. -/
def node.children_all (P : node → Prop) (n : node) : Prop :=
  (∀ c ∈ n.array_value, P c) ∧ (∀ p ∈ n.object_value, P p.2)

/-! # Theorems -/

@[simp]
theorem Ref.read_other (x this : node) : (Ref.other x).read this = x := rfl

@[simp]
theorem Ref.read_self (this : node) : Ref.self.read this = this := rfl

/-! ## The key order is a strict total order -/

theorem chars_lt_irrefl (a : List Char) : chars_lt a a = false := by
  induction a with
  | nil => rfl
  | cons x xs ih => simp [chars_lt, ih]

theorem chars_lt_asymm : ∀ (a b : List Char), chars_lt a b = true → chars_lt b a = false
  | _, [], h => by simp [chars_lt] at h
  | [], _ :: _, _ => by simp [chars_lt]
  | x :: xs, y :: ys, h => by
    simp only [chars_lt] at h ⊢
    by_cases hxy : x < y
    · have : ¬ y < x := not_lt_of_gt hxy
      simp [this, hxy]
    · by_cases hyx : y < x
      · simp [hxy, hyx] at h
      · simp [hxy, hyx] at h ⊢
        exact chars_lt_asymm xs ys h

theorem chars_lt_connex : ∀ (a b : List Char), chars_lt a b = false → chars_lt b a = false → a = b
  | [], [], _, _ => rfl
  | [], _ :: _, h, _ => by simp [chars_lt] at h
  | _ :: _, [], _, h => by simp [chars_lt] at h
  | x :: xs, y :: ys, h1, h2 => by
    simp only [chars_lt] at h1 h2
    by_cases hxy : x < y
    · simp [hxy] at h1
    · by_cases hyx : y < x
      · simp [hyx] at h2
      · simp [hxy, hyx] at h1 h2
        have hx : x = y := le_antisymm (not_lt.mp hyx) (not_lt.mp hxy)
        rw [hx, chars_lt_connex xs ys h1 h2]

theorem chars_lt_trans : ∀ (a b c : List Char), chars_lt a b = true → chars_lt b c = true → chars_lt a c = true
  | _, _, [], _, h => by simp [chars_lt] at h
  | _, [], _ :: _, h, _ => by simp [chars_lt] at h
  | [], _ :: _, _ :: _, _, _ => by simp [chars_lt]
  | x :: xs, y :: ys, z :: zs, h1, h2 => by
    simp only [chars_lt] at h1 h2 ⊢
    by_cases hxy : x < y
    · by_cases hyz : y < z
      · simp [lt_trans hxy hyz]
      · by_cases hzy : z < y
        · simp [hyz, hzy] at h2
        · have : y = z := le_antisymm (not_lt.mp hzy) (not_lt.mp hyz)
          subst this; simp [hxy]
    · by_cases hyx : y < x
      · simp [hxy, hyx] at h1
      · have : x = y := le_antisymm (not_lt.mp hyx) (not_lt.mp hxy)
        subst this
        simp [hxy] at h1
        by_cases hxz : x < z
        · simp [hxz]
        · by_cases hzx : z < x
          · simp [hxz, hzx] at h2
          · simp [hxz, hzx] at h2 ⊢
            exact chars_lt_trans xs ys zs h1 h2

theorem key_lt_irrefl (a : String) : key_lt a a = false := chars_lt_irrefl a.data
theorem key_lt_asymm {a b : String} (h : key_lt a b = true) : key_lt b a = false :=
  chars_lt_asymm a.data b.data h
theorem key_lt_connex {a b : String} (h1 : key_lt a b = false) (h2 : key_lt b a = false) : a = b :=
  String.ext (chars_lt_connex a.data b.data h1 h2)
theorem key_lt_trans {a b c : String} (h1 : key_lt a b = true) (h2 : key_lt b c = true) : key_lt a c = true :=
  chars_lt_trans a.data b.data c.data h1 h2

/-! ## std::map lemmas -/

theorem map_find_insert_ne {α : Type} (k k' : String) (v : α) (h : k' ≠ k) :
    ∀ m : List (String × α), map_find k' (map_insert k v m) = map_find k' m
  | [] => by simp [map_insert, map_find, Ne.symm h]
  | (k0, v0) :: rest => by
    simp only [map_insert]
    split
    · simp [map_find, Ne.symm h]
    · split
      · simp only [map_find]
        rw [map_find_insert_ne k k' v h rest]
      · rfl

theorem map_find_insert_absent {α : Type} (k : String) (v : α) :
    ∀ m : List (String × α), map_find k m = none → map_find k (map_insert k v m) = some v
  | [], _ => by simp [map_insert, map_find]
  | (k0, v0) :: rest, h => by
    simp only [map_find] at h
    split at h
    · cases h
    · rename_i hne
      simp only [map_insert]
      split
      · simp [map_find]
      · split
        · simp only [map_find, if_neg hne]
          exact map_find_insert_absent k v rest h
        · rename_i h1 h2
          exact absurd (key_lt_connex (Bool.eq_false_iff.mpr h2) (Bool.eq_false_iff.mpr h1)) hne

theorem map_insert_present {α : Type} (k : String) (v : α) :
    ∀ m : List (String × α), map_valid m → (map_find k m).isSome = true → map_insert k v m = m
  | [], _, h => by simp [map_find] at h
  | (k0, v0) :: rest, hv, h => by
    have hv' : map_valid rest := (List.pairwise_cons.mp hv).2
    have hlt : ∀ p ∈ rest, key_lt k0 p.1 = true := by
      intro p hp
      exact (List.pairwise_cons.mp hv).1 p.1 (List.mem_map_of_mem Prod.fst hp)
    simp only [map_insert]
    split
    · rename_i hk
      -- the key lies before the first key of a sorted map: it cannot be present
      exfalso
      have habs : ∀ m : List (String × α), (∀ p ∈ m, key_lt k p.1 = true) → map_find k m = none := by
        intro m
        induction m with
        | nil => intro _; rfl
        | cons p ps ih =>
          intro hall
          have hp := hall p (List.mem_cons_self _ _)
          have hne : p.1 ≠ k := by
            intro he; rw [he, key_lt_irrefl] at hp; cases hp
          obtain ⟨pk, pv⟩ := p
          simp only [map_find, if_neg hne]
          exact ih (fun q hq => hall q (List.mem_cons_of_mem _ hq))
      have hnone : map_find k ((k0, v0) :: rest) = none := by
        apply habs
        intro p hp
        rcases List.mem_cons.mp hp with rfl | hp
        · exact hk
        · exact key_lt_trans hk (hlt p hp)
      rw [hnone] at h; cases h
    · split
      · rename_i h1 h2
        have hne : k0 ≠ k := by
          intro he; rw [he, key_lt_irrefl] at h2; cases h2
        simp only [map_find, if_neg hne] at h
        rw [map_insert_present k v rest hv' h]
      · rfl

theorem map_insert_keys {α : Type} (k : String) (v : α) :
    ∀ (m : List (String × α)) (p : String × α), p ∈ map_insert k v m → p.1 = k ∨ p ∈ m
  | [], p, h => by
    simp only [map_insert, List.mem_singleton] at h
    left; rw [h]
  | (k0, v0) :: rest, p, h => by
    simp only [map_insert] at h
    split at h
    · rcases List.mem_cons.mp h with rfl | h
      · left; rfl
      · right; exact h
    · split at h
      · rcases List.mem_cons.mp h with rfl | h
        · right; exact List.mem_cons_self _ _
        · rcases map_insert_keys k v rest p h with h | h
          · left; exact h
          · right; exact List.mem_cons_of_mem _ h
      · right; exact h

theorem map_insert_valid {α : Type} (k : String) (v : α) :
    ∀ m : List (String × α), map_valid m → map_valid (map_insert k v m)
  | [], _ => by simp [map_insert, map_valid]
  | (k0, v0) :: rest, hv => by
    have hv' : map_valid rest := (List.pairwise_cons.mp hv).2
    have hlt : ∀ a ∈ rest.map Prod.fst, key_lt k0 a = true := (List.pairwise_cons.mp hv).1
    simp only [map_insert]
    split
    · rename_i hk
      unfold map_valid
      simp only [List.map_cons]
      refine List.pairwise_cons.mpr ⟨?_, hv⟩
      intro a ha
      rcases List.mem_cons.mp ha with rfl | ha
      · exact hk
      · exact key_lt_trans hk (hlt a ha)
    · split
      · rename_i h1 h2
        unfold map_valid
        simp only [List.map_cons]
        refine List.pairwise_cons.mpr ⟨?_, map_insert_valid k v rest hv'⟩
        intro a ha
        obtain ⟨p, hp, rfl⟩ := List.mem_map.mp ha
        rcases map_insert_keys k v rest p hp with h | h
        · rw [h]; exact h2
        · exact hlt p.1 (List.mem_map_of_mem Prod.fst h)
      · exact hv

theorem map_set_keys {α : Type} (k : String) (v : α) :
    ∀ m : List (String × α), (map_set k v m).map Prod.fst = m.map Prod.fst
  | [] => rfl
  | (k0, v0) :: rest => by
    simp only [map_set]
    split
    · rfl
    · simp only [List.map_cons, map_set_keys k v rest]

theorem map_set_valid {α : Type} (k : String) (v : α) (m : List (String × α))
    (h : map_valid m) : map_valid (map_set k v m) := by
  unfold map_valid at *
  rw [map_set_keys]; exact h

theorem map_foldl_insert_valid {α V : Type} (g : String × V → String × α) :
    ∀ (v : List (String × V)) (acc : List (String × α)), map_valid acc →
      map_valid (v.foldl (fun acc it => map_insert (g it).1 (g it).2 acc) acc)
  | [], _, h => h
  | it :: rest, acc, h => by
    simp only [List.foldl_cons]
    exact map_foldl_insert_valid g rest _ (map_insert_valid _ _ acc h)

theorem map_valid_nil {α : Type} : map_valid ([] : List (String × α)) := List.Pairwise.nil

theorem map_valid_single {α : Type} (k : String) (v : α) : map_valid [(k, v)] := by
  simp [map_valid]

/-! ## What the public operations maintain -/

theorem Built.inactive_empty {n : node} (h : Built n) : n.inactive_empty := by
  induction h with
  | assign_list conv v _ _ _ => simp [node.inactive_empty, node.assign_list]
  | assign_map conv v _ _ _ => simp [node.inactive_empty, node.assign_map]
  | copy _ ih => exact ih
  | assign_copy _ _ ihc _ => exact ihc
  | clear _ ih =>
    rename_i n
    obtain ⟨h1, h2, h3⟩ := ih
    unfold node.clear
    split
    · rename_i ht; refine ⟨?_, ?_, ?_⟩ <;> simp_all
    · split
      · rename_i ht; refine ⟨?_, ?_, ?_⟩ <;> simp_all
      · split
        · rename_i ht; refine ⟨?_, ?_, ?_⟩ <;> simp_all
        · exact ⟨h1, h2, h3⟩
  | push_back _ _ _ ih =>
    obtain ⟨h1, h2, h3⟩ := ih
    unfold node.push_back
    split
    · refine ⟨?_, ?_, ?_⟩ <;> simp_all
    · refine ⟨?_, ?_, ?_⟩ <;> simp
  | insert _ _ _ ih =>
    obtain ⟨h1, h2, h3⟩ := ih
    unfold node.insert
    split
    · refine ⟨?_, ?_, ?_⟩ <;> simp_all
    · refine ⟨?_, ?_, ?_⟩ <;> simp
  | insert_at pos _ _ hr _ ih =>
    obtain ⟨h1, h2, h3⟩ := ih
    unfold node.insert_at at hr
    split at hr
    · split at hr
      · cases hr
        refine ⟨?_, ?_, ?_⟩ <;> simp_all
      · cases hr
    · cases hr
      refine ⟨?_, ?_, ?_⟩ <;> simp
  | insert_key key _ _ _ ih =>
    obtain ⟨h1, h2, h3⟩ := ih
    unfold node.insert_key
    split
    · refine ⟨?_, ?_, ?_⟩ <;> simp_all
    · refine ⟨?_, ?_, ?_⟩ <;> simp
  | push_back_self _ ih =>
    obtain ⟨h1, h2, h3⟩ := ih
    unfold node.push_back
    split
    · refine ⟨?_, ?_, ?_⟩ <;> simp_all
    · refine ⟨?_, ?_, ?_⟩ <;> simp
  | insert_self _ ih =>
    obtain ⟨h1, h2, h3⟩ := ih
    unfold node.insert
    split
    · refine ⟨?_, ?_, ?_⟩ <;> simp_all
    · refine ⟨?_, ?_, ?_⟩ <;> simp
  | insert_at_self pos _ hr ih =>
    obtain ⟨h1, h2, h3⟩ := ih
    unfold node.insert_at at hr
    split at hr
    · split at hr
      · cases hr
        refine ⟨?_, ?_, ?_⟩ <;> simp_all
      · cases hr
    · cases hr
      refine ⟨?_, ?_, ?_⟩ <;> simp
  | insert_key_self key _ ih =>
    obtain ⟨h1, h2, h3⟩ := ih
    unfold node.insert_key
    split
    · refine ⟨?_, ?_, ?_⟩ <;> simp_all
    · refine ⟨?_, ?_, ?_⟩ <;> simp
  | @subscript key m _ ih =>
    obtain ⟨h1, h2, h3⟩ := ih
    unfold node.subscript
    by_cases ht : m.value_type = NodeType.OBJECT
    · refine ⟨?_, ?_, ?_⟩ <;> simp_all
    · refine ⟨?_, ?_, ?_⟩ <;> simp [ht]
  | set_key key _ _ hp _ ih =>
    obtain ⟨h1, h2, h3⟩ := ih
    refine ⟨h1, ?_, h3⟩
    intro ht
    simp only [h2 ht, map_set]
  | set_at id _ _ hlt _ ih =>
    obtain ⟨h1, h2, h3⟩ := ih
    refine ⟨h1, h2, ?_⟩
    intro ht
    simp only [node.set_at] at ht ⊢
    simp [h3 ht]
  | _ => first
    | (refine ⟨?_, ?_, ?_⟩ <;> simp [node.default, node.of_short, node.of_ushort, node.of_int,
        node.of_uint, node.of_long, node.of_ulong, node.of_llong, node.of_ullong, node.of_float,
        node.of_double, node.of_ldouble, node.of_bool, node.of_string, node.assign_short,
        node.assign_ushort, node.assign_int, node.assign_uint, node.assign_long,
        node.assign_ulong, node.assign_llong, node.assign_ullong, node.assign_float,
        node.assign_double, node.assign_ldouble, node.assign_bool, node.assign_string])

theorem Built.map_valid {n : node} (h : Built n) : map_valid n.object_value := by
  induction h with
  | assign_list conv v _ _ _ => exact map_valid_nil
  | @assign_map V conv v m _ _ _ =>
    exact map_foldl_insert_valid (fun it : String × V => (it.1, conv it.2)) v [] map_valid_nil
  | copy _ ih => exact ih
  | assign_copy _ _ ihc _ => exact ihc
  | @clear m _ ih =>
    unfold node.clear
    split
    · exact ih
    · split
      · exact map_valid_nil
      · split
        · exact ih
        · exact ih
  | @push_back x m _ _ _ ih =>
    unfold node.push_back
    split
    · exact ih
    · exact map_valid_nil
  | @insert x m _ _ _ ih =>
    unfold node.insert
    split
    · exact ih
    · exact map_valid_nil
  | @insert_at pos x m r _ _ hr _ ih =>
    unfold node.insert_at at hr
    split at hr
    · split at hr
      · cases hr; exact ih
      · cases hr
    · cases hr; exact map_valid_nil
  | @insert_key key x m _ _ _ ih =>
    unfold node.insert_key
    split
    · exact map_insert_valid _ _ _ ih
    · exact map_valid_single _ _
  | @push_back_self m _ ih =>
    unfold node.push_back
    split
    · exact ih
    · exact map_valid_nil
  | @insert_self m _ ih =>
    unfold node.insert
    split
    · exact ih
    · exact map_valid_nil
  | @insert_at_self pos m r _ hr ih =>
    unfold node.insert_at at hr
    split at hr
    · split at hr
      · cases hr; exact ih
      · cases hr
    · cases hr; exact map_valid_nil
  | @insert_key_self key m _ ih =>
    unfold node.insert_key
    split
    · exact map_insert_valid _ _ _ ih
    · exact map_valid_single _ _
  | @subscript key m _ ih =>
    unfold node.subscript
    by_cases ht : m.value_type = NodeType.OBJECT
    · simp only [ne_eq, ht, not_true_eq_false, if_false]
      exact map_insert_valid _ _ _ ih
    · simp only [ne_eq, ht, not_false_eq_true, if_true]
      exact map_insert_valid _ _ _ ih
  | set_key key _ _ hp _ ih => exact map_set_valid _ _ _ ih
  | set_at id _ _ hlt _ ih => exact ih
  | _ => exact map_valid_nil

/-! ## Emission of containers -/

theorem emit_entries_eq_map (ba : Bool) (fl : FloatLib) :
    ∀ o : List (String × node), emit_entries ba fl o = o.map (fun p => (p.1, emit ba fl p.2))
  | [] => by simp [emit_entries]
  | (k, x) :: rest => by simp [emit_entries, emit_entries_eq_map ba fl rest]

theorem emit_elements_eq_map (ba : Bool) (fl : FloatLib) :
    ∀ a : List node, emit_elements ba fl a = a.map (emit ba fl)
  | [] => by simp [emit_elements]
  | x :: rest => by simp [emit_elements, emit_elements_eq_map ba fl rest]

theorem emit_of_object (ba : Bool) (fl : FloatLib) (n : node) (h : n.value_type = NodeType.OBJECT) :
    emit ba fl n = emit_object (emit_entries ba fl n.object_value) := by
  obtain ⟨vt, nt, st, s, o, a⟩ := n
  simp only at h
  subst h
  simp only [emit]

theorem emit_of_array (ba : Bool) (fl : FloatLib) (n : node) (h : n.value_type = NodeType.ARRAY) :
    emit ba fl n = emit_array (emit_elements ba fl n.array_value) := by
  obtain ⟨vt, nt, st, s, o, a⟩ := n
  simp only at h
  subst h
  simp only [emit]

theorem object_loop_ok :
    ∀ (kts : List (String × String)) (out : String),
      object_loop (kts.map (fun p => (p.1, Except.ok p.2))) out =
        Except.ok (out ++ comma_joined (kts.map (fun p => member_text p.1 p.2)))
  | [], out => by
    simp only [List.map_nil, object_loop, comma_joined, String.append_empty]
  | [(k, t)], out => by
    simp only [List.map_cons, List.map_nil, object_loop, comma_joined, List.isEmpty_nil,
      if_true, member_text, String.append_assoc]
  | (k, t) :: (k2, t2) :: rest, out => by
    have ih := object_loop_ok ((k2, t2) :: rest) (out ++ "\"" ++ k ++ "\":" ++ t ++ ",")
    simp only [List.map_cons] at ih
    simp only [List.map_cons, object_loop, List.isEmpty_cons, Bool.false_eq_true, if_false,
      comma_joined]
    simp only [object_loop] at ih
    rw [ih]
    simp only [member_text, String.append_assoc]

theorem emit_entries_of_texts (ba : Bool) (fl : FloatLib) :
    ∀ (o : List (String × node)) (ts : List String),
      o.map (fun p => emit ba fl p.2) = ts.map Except.ok →
      emit_entries ba fl o =
        (List.zip (o.map Prod.fst) ts).map (fun p => (p.1, Except.ok p.2)) ∧
      List.zipWith member_text (o.map Prod.fst) ts =
        (List.zip (o.map Prod.fst) ts).map (fun p => member_text p.1 p.2)
  | [], [], _ => by simp [emit_entries]
  | [], _ :: _, h => by simp at h
  | _ :: _, [], h => by simp at h
  | (k, x) :: rest, t :: ts, h => by
    simp only [List.map_cons, List.cons.injEq] at h
    obtain ⟨h1, h2⟩ := emit_entries_of_texts ba fl rest ts h.2
    simp only [emit_entries, h.1, h1, List.map_cons, List.zip_cons_cons, List.zipWith_cons_cons,
      h2, and_self]

/-- C9: an object whose values all emit emits an opening brace, its members
`"key":value` in map order separated by single commas with none trailing, and a closing
brace; map order is strictly ascending key order; an empty object emits `{}`. -/
theorem C9_object_emission (ba : Bool) (fl : FloatLib) (n : node) (ts : List String)
    (htag : n.value_type = NodeType.OBJECT) (hmap : map_valid n.object_value)
    (hts : n.object_value.map (fun p => emit ba fl p.2) = ts.map Except.ok) :
    emit ba fl n =
        Except.ok ("\x7b" ++
          comma_joined (List.zipWith member_text (n.object_value.map Prod.fst) ts) ++ "\x7d") ∧
      List.Pairwise (fun a b => key_lt a b = true) (n.object_value.map Prod.fst) ∧
      (n.object_value = [] → emit ba fl n = Except.ok "\x7b\x7d") := by
  obtain ⟨h1, h2⟩ := emit_entries_of_texts ba fl n.object_value ts hts
  have hemit : emit ba fl n =
      Except.ok ("\x7b" ++
        comma_joined (List.zipWith member_text (n.object_value.map Prod.fst) ts) ++ "\x7d") := by
    rw [emit_of_object ba fl n htag, h1, h2, emit_object, object_loop_ok]
  refine ⟨hemit, hmap, ?_⟩
  intro hempty
  rw [hemit, hempty]
  rfl

theorem C9_witness :
    emit false ⟨fun _ _ => "", fun _ _ _ => 0⟩
        ((node.default.insert_key "k" (node.of_bool true)).insert_key "b" (node.of_int 7)) =
      Except.ok "\x7b\"b\":7,\"k\":1\x7d" :=
  (C9_object_emission false ⟨fun _ _ => "", fun _ _ _ => 0⟩
    ((node.default.insert_key "k" (node.of_bool true)).insert_key "b" (node.of_int 7))
    ["7", "1"] (by decide) (by decide) (by decide)).1

theorem collect_map_ok : ∀ ts : List String, collect (ts.map Except.ok) = Except.ok ts
  | [] => rfl
  | t :: ts => by simp only [List.map_cons, collect, collect_map_ok ts]

theorem comma_joined_append_last : ∀ (ts : List String) (t : String),
    comma_joined (ts ++ [t]) = commas ts ++ t
  | [], t => by simp only [List.nil_append, comma_joined, commas, String.empty_append]
  | [a], t => by
    simp only [List.cons_append, List.nil_append, comma_joined, commas, String.append_empty]
  | a :: b :: rest, t => by
    have ih := comma_joined_append_last (b :: rest) t
    have hstep : comma_joined (a :: b :: rest ++ [t]) =
        a ++ "," ++ comma_joined (b :: rest ++ [t]) := rfl
    rw [hstep, ih]
    simp only [commas, String.append_assoc]

theorem collect_append_last : ∀ (init : List (Except Fault String)) (x : Except Fault String),
    collect (init ++ [x]) =
      match collect init with
      | Except.error e => Except.error e
      | Except.ok ts =>
        match x with
        | Except.error e => Except.error e
        | Except.ok t => Except.ok (ts ++ [t])
  | [], Except.error e => by simp [collect]
  | [], Except.ok t => by simp [collect]
  | Except.error e :: rest, x => by simp [collect]
  | Except.ok t :: rest, x => by
    have hstep : collect (Except.ok t :: rest ++ [x]) =
        match collect (rest ++ [x]) with
        | Except.error e => Except.error e
        | Except.ok ts => Except.ok (t :: ts) := rfl
    rw [hstep, collect_append_last rest x]
    simp only [collect]
    cases collect rest with
    | error e => rfl
    | ok ts => cases x <;> rfl

theorem array_loop_eq (count : Nat) :
    ∀ (pre rest : List (Except Fault String)) (out : String), count ≤ rest.length →
      array_loop (pre ++ rest) count pre.length out =
        match collect (rest.take count) with
        | Except.error e => Except.error e
        | Except.ok ts => Except.ok (out ++ commas ts) := by
  induction count with
  | zero =>
    intro pre rest out _
    simp only [array_loop, List.take_zero, collect, commas, String.append_empty]
  | succ count ih =>
    intro pre rest out hle
    match rest, hle with
    | [], hle => simp at hle
    | x :: rest', hle =>
      have hget : (pre ++ x :: rest')[pre.length]? = some x := by
        rw [List.getElem?_append_right (Nat.le_refl _)]
        simp
      simp only [array_loop, hget, List.take_succ_cons]
      cases x with
      | error e => simp only [collect]
      | ok t =>
        have hlen : (pre ++ [Except.ok t]).length = pre.length + 1 := by simp
        have happ : pre ++ Except.ok t :: rest' = (pre ++ [Except.ok t]) ++ rest' := by simp
        have hle' : count ≤ rest'.length := by simpa using hle
        simp only [collect]
        rw [happ, ← hlen, ih (pre ++ [Except.ok t]) rest' (out ++ t ++ ",") hle']
        cases collect (List.take count rest') with
        | error e => rfl
        | ok ts => simp only [commas, String.append_assoc]

theorem size_minus_one (len : Nat) (h : len + 1 < SIZE_MOD) :
    (SIZE_MOD - 1 + (len + 1)) % SIZE_MOD = len := by
  unfold SIZE_MOD at *
  omega

theorem array_loop_init (init : List (Except Fault String)) (x : Except Fault String) :
    array_loop (init ++ [x]) init.length 0 "[" =
      match collect init with
      | Except.error e => Except.error e
      | Except.ok ts => Except.ok ("[" ++ commas ts) := by
  have hloop := array_loop_eq init.length [] (init ++ [x]) "[" (by simp)
  have htake : List.take init.length (init ++ [x]) = init := by simp
  rw [htake] at hloop
  exact hloop

theorem emit_array_eq (init : List (Except Fault String)) (x : Except Fault String)
    (h : (init ++ [x]).length < SIZE_MOD) :
    emit_array (init ++ [x]) =
      match collect (init ++ [x]) with
      | Except.error e => Except.error e
      | Except.ok ts => Except.ok ("[" ++ comma_joined ts ++ "]") := by
  have hlen : (init ++ [x]).length = init.length + 1 := by simp
  have hb : (SIZE_MOD - 1 + (init ++ [x]).length) % SIZE_MOD = init.length := by
    rw [hlen] at h ⊢
    exact size_minus_one _ h
  have hlast : (init ++ [x]).getLast? = some x := by simp
  unfold emit_array
  rw [hb, array_loop_init, collect_append_last, hlast]
  cases collect init with
  | error e => rfl
  | ok ts =>
    cases x with
    | error e => rfl
    | ok t => simp only [comma_joined_append_last, String.append_assoc]

theorem emit_array_nonempty (parts : List (Except Fault String)) (hne : parts ≠ [])
    (h : parts.length < SIZE_MOD) :
    emit_array parts =
      match collect parts with
      | Except.error e => Except.error e
      | Except.ok ts => Except.ok ("[" ++ comma_joined ts ++ "]") := by
  have hsplit := List.dropLast_append_getLast hne
  rw [← hsplit] at h ⊢
  exact emit_array_eq _ _ h

theorem emit_array_nil : emit_array [] = Except.error Fault.out_of_range := by
  decide

theorem collect_error : ∀ (parts : List (Except Fault String)) (e : Fault),
    collect parts = Except.error e → Except.error e ∈ parts
  | [], e, h => by simp [collect] at h
  | Except.error e' :: rest, e, h => by
    simp only [collect, Except.error.injEq] at h
    rw [h]; exact List.mem_cons_self _ _
  | Except.ok t :: rest, e, h => by
    simp only [collect] at h
    cases hc : collect rest with
    | error e2 =>
      rw [hc] at h
      simp only [Except.error.injEq] at h
      rw [← h]
      exact List.mem_cons_of_mem _ (collect_error rest e2 hc)
    | ok ts => rw [hc] at h; cases h

theorem object_loop_error : ∀ (entries : List (String × Except Fault String)) (out : String)
    (e : Fault), object_loop entries out = Except.error e → ∃ k, (k, Except.error e) ∈ entries
  | [], out, e, h => by simp [object_loop] at h
  | (k, Except.error e') :: rest, out, e, h => by
    simp only [object_loop, Except.error.injEq] at h
    rw [h]; exact ⟨k, List.mem_cons_self _ _⟩
  | (k, Except.ok t) :: rest, out, e, h => by
    simp only [object_loop] at h
    obtain ⟨k2, hk2⟩ := object_loop_error rest _ e h
    exact ⟨k2, List.mem_cons_of_mem _ hk2⟩

theorem emit_object_error (entries : List (String × Except Fault String)) (e : Fault)
    (h : emit_object entries = Except.error e) : ∃ k, (k, Except.error e) ∈ entries := by
  unfold emit_object at h
  cases hl : object_loop entries "\x7b" with
  | error e2 =>
    rw [hl] at h
    simp only [Except.error.injEq] at h
    rw [← h]; exact object_loop_error entries _ e2 hl
  | ok out => rw [hl] at h; cases h

theorem emit_boolean_ne (ba : Bool) (storage : Storage) :
    emit_boolean ba storage ≠ Except.error Fault.out_of_range := by
  cases storage <;> simp [emit_boolean]

theorem emit_number_ne (fl : FloatLib) (number_type : NodeNumberType) (storage : Storage) :
    emit_number fl number_type storage ≠ Except.error Fault.out_of_range := by
  cases number_type <;> cases storage <;> simp [emit_number]

mutual
theorem emit_no_out_of_range (ba : Bool) (fl : FloatLib) :
    ∀ n : node, arrays_nonempty n → emit ba fl n ≠ Except.error Fault.out_of_range
  | ⟨NodeType.NONE, _, _, _, _, _⟩, _ => by simp [emit]
  | ⟨NodeType.STRING, _, _, _, _, _⟩, _ => by simp [emit]
  | ⟨NodeType.BOOLEAN, _, st, _, _, _⟩, _ => by
    simp only [emit]; exact emit_boolean_ne ba st
  | ⟨NodeType.NUMBER, nt, st, _, _, _⟩, _ => by
    simp only [emit]; exact emit_number_ne fl nt st
  | ⟨NodeType.ARRAY, _, _, _, _, a⟩, h => by
    simp only [arrays_nonempty] at h
    obtain ⟨⟨hne, hlen⟩, hel⟩ := h
    have hall := elements_no_out_of_range ba fl a hel
    simp only [emit]
    have hne' : emit_elements ba fl a ≠ [] := by
      rw [emit_elements_eq_map]; simpa using hne
    have hlen' : (emit_elements ba fl a).length < SIZE_MOD := by
      rw [emit_elements_eq_map]; simpa using hlen
    rw [emit_array_nonempty _ hne' hlen']
    intro hc
    cases hcol : collect (emit_elements ba fl a) with
    | error e =>
      rw [hcol] at hc
      simp only [Except.error.injEq] at hc
      have hmem := collect_error _ _ hcol
      rw [emit_elements_eq_map, hc] at hmem
      obtain ⟨x, hx, hxe⟩ := List.mem_map.mp hmem
      exact hall x hx hxe
    | ok ts => rw [hcol] at hc; cases hc
  | ⟨NodeType.OBJECT, _, _, _, o, _⟩, h => by
    simp only [arrays_nonempty] at h
    have hall := entries_no_out_of_range ba fl o h
    simp only [emit]
    intro hc
    obtain ⟨k, hk⟩ := emit_object_error _ _ hc
    rw [emit_entries_eq_map] at hk
    obtain ⟨p, hp, hpe⟩ := List.mem_map.mp hk
    simp only [Prod.mk.injEq] at hpe
    exact hall p hp hpe.2
theorem elements_no_out_of_range (ba : Bool) (fl : FloatLib) :
    ∀ a : List node, elements_nonempty a →
      ∀ x ∈ a, emit ba fl x ≠ Except.error Fault.out_of_range
  | [], _ => by simp
  | y :: rest, h => by
    simp only [elements_nonempty] at h
    intro x hx
    rcases List.mem_cons.mp hx with rfl | hx
    · exact emit_no_out_of_range ba fl _ h.1
    · exact elements_no_out_of_range ba fl rest h.2 x hx
theorem entries_no_out_of_range (ba : Bool) (fl : FloatLib) :
    ∀ o : List (String × node), entries_nonempty o →
      ∀ p ∈ o, emit ba fl p.2 ≠ Except.error Fault.out_of_range
  | [], _ => by simp
  | (k, y) :: rest, h => by
    simp only [entries_nonempty] at h
    intro p hp
    rcases List.mem_cons.mp hp with rfl | hp
    · exact emit_no_out_of_range ba fl _ h.1
    · exact entries_no_out_of_range ba fl rest h.2 p hp
end


/-! ## C8 and C10: emission of arrays -/

/-- C8 (the code departs from the claim): an array node without elements does not emit
`[]`; the loop bound `size() - 1` wraps around and the first iteration reads
`array_value[0]` outside the vector.  Such a node is reached by `clear()` on an array and
by assignment from an empty sequence. -/
theorem C8_empty_array_emission_faults (ba : Bool) (fl : FloatLib) :
    (∀ n : node, n.value_type = NodeType.ARRAY → n.array_value = [] →
      emit ba fl n = Except.error Fault.out_of_range) ∧
    (∀ x : node, emit ba fl ((node.default.push_back x).clear) =
      Except.error Fault.out_of_range) ∧
    emit ba fl (node.default.assign_list node.of_int []) = Except.error Fault.out_of_range ∧
    emit ba fl ((node.default.subscript "k").clear) = Except.ok "\x7b\x7d" := by
  have hgen : ∀ n : node, n.value_type = NodeType.ARRAY → n.array_value = [] →
      emit ba fl n = Except.error Fault.out_of_range := by
    intro n ht ha
    rw [emit_of_array ba fl n ht, ha]
    exact emit_array_nil
  refine ⟨hgen, ?_, ?_, ?_⟩
  · intro x
    exact hgen _ rfl rfl
  · exact hgen _ rfl rfl
  · rfl

theorem C8_witness :
    emit false ⟨fun _ _ => "", fun _ _ _ => 0⟩ ((node.default.push_back (node.of_int 1)).clear) =
      Except.error Fault.out_of_range :=
  (C8_empty_array_emission_faults false ⟨fun _ _ => "", fun _ _ _ => 0⟩).1
    ((node.default.push_back (node.of_int 1)).clear) (by decide) rfl

/-- C10: an array with at least one element, all of whose nested arrays are non-empty,
emits without any out-of-range access; the text is `[`, the emissions of the elements in
positional order separated by single commas with none trailing, and `]` (if the emission
of an element is itself undefined, so is that of the array). -/
theorem C10_array_emission (ba : Bool) (fl : FloatLib) (n : node)
    (htag : n.value_type = NodeType.ARRAY) (hne : arrays_nonempty n) :
    emit ba fl n ≠ Except.error Fault.out_of_range ∧
    emit ba fl n =
      (match collect (n.array_value.map (emit ba fl)) with
       | Except.error e => Except.error e
       | Except.ok ts => Except.ok ("[" ++ comma_joined ts ++ "]")) ∧
    (∀ ts : List String, n.array_value.map (emit ba fl) = ts.map Except.ok →
      emit ba fl n = Except.ok ("[" ++ comma_joined ts ++ "]")) := by
  have hshape : emit ba fl n =
      (match collect (n.array_value.map (emit ba fl)) with
       | Except.error e => Except.error e
       | Except.ok ts => Except.ok ("[" ++ comma_joined ts ++ "]")) := by
    obtain ⟨vt, nt, st, s, o, a⟩ := n
    simp only at htag
    subst htag
    simp only [arrays_nonempty] at hne
    obtain ⟨⟨hne1, hlen⟩, _⟩ := hne
    simp only [emit]
    rw [emit_elements_eq_map]
    exact emit_array_nonempty _ (by simpa using hne1) (by simpa using hlen)
  refine ⟨emit_no_out_of_range ba fl n hne, hshape, ?_⟩
  intro ts hts
  rw [hshape, hts, collect_map_ok]

theorem C10_witness :
    emit false ⟨fun _ _ => "", fun _ _ _ => 0⟩
        (((node.default.push_back (node.of_int 3)).push_back (node.of_string "x")).push_back
          (node.default.push_back (node.of_bool false))) =
      Except.ok "[3,\"x\",[0]]" :=
  (C10_array_emission false ⟨fun _ _ => "", fun _ _ _ => 0⟩
    (((node.default.push_back (node.of_int 3)).push_back (node.of_string "x")).push_back
      (node.default.push_back (node.of_bool false)))
    (by decide)
    (by simp [arrays_nonempty, elements_nonempty, node.push_back, node.default, node.copy,
          node.of_int, node.of_string, node.of_bool, SIZE_MOD])).2.2
    ["3", "\"x\"", "[0]"] (by decide)


/-! ## C1: emission does not depend on the order in which keys were assigned -/

theorem modify_default (k : String) (f : node → node) :
    node.default.modify k f =
      { node.default with value_type := NodeType.OBJECT,
                          object_value := [(k, f node.default)] } := by
  simp [node.modify, node.subscript, node.default, map_insert, map_find, map_set]

theorem modify_second_after {k1 k2 : String} (c1 : node) (f2 : node → node)
    (h : key_lt k1 k2 = true) :
    ({ node.default with value_type := NodeType.OBJECT, object_value := [(k1, c1)] } : node).modify
        k2 f2 =
      { node.default with value_type := NodeType.OBJECT,
                          object_value := [(k1, c1), (k2, f2 node.default)] } := by
  have h' : key_lt k2 k1 = false := key_lt_asymm h
  have hne : k1 ≠ k2 := by
    intro he; rw [he, key_lt_irrefl] at h; cases h
  simp [node.modify, node.subscript, node.default, map_insert, map_find, map_set, h, h', hne]

theorem modify_second_before {k1 k2 : String} (c1 : node) (f2 : node → node)
    (h : key_lt k2 k1 = true) :
    ({ node.default with value_type := NodeType.OBJECT, object_value := [(k1, c1)] } : node).modify
        k2 f2 =
      { node.default with value_type := NodeType.OBJECT,
                          object_value := [(k2, f2 node.default), (k1, c1)] } := by
  simp [node.modify, node.subscript, node.default, map_insert, map_find, map_set, h]

theorem emit_two_entries (ba : Bool) (fl : FloatLib) (k1 k2 t1 t2 : String) (c1 c2 : node)
    (h1 : emit ba fl c1 = Except.ok t1) (h2 : emit ba fl c2 = Except.ok t2) :
    emit ba fl { node.default with value_type := NodeType.OBJECT,
                                   object_value := [(k1, c1), (k2, c2)] } =
      Except.ok ("\x7b" ++ (member_text k1 t1 ++ "," ++ member_text k2 t2) ++ "\x7d") := by
  rw [emit_of_object ba fl _ rfl]
  have := object_loop_ok [(k1, t1), (k2, t2)] "\x7b"
  simp only [List.map_cons, List.map_nil, comma_joined] at this
  simp only [emit_entries, h1, h2, emit_object, this]

theorem emit_one (ba : Bool) (fl : FloatLib) : emit ba fl (node.default.assign_int 1) = Except.ok "1" := rfl

theorem emit_one_two (ba : Bool) (fl : FloatLib) :
    emit ba fl (node.default.assign_list node.of_int [1, 2]) = Except.ok "[1,2]" := by
  rw [emit_of_array ba fl _ rfl, emit_elements_eq_map]
  exact emit_array_nonempty _ (by simp [node.assign_list]) (by simp [node.assign_list, SIZE_MOD])

/-- C1: starting from a Null node, assigning under two distinct keys emits the same text
in either order of assignment, the member with the smaller key first; `a = 1`,
`b = [1, 2]` emits exactly `{"a":1,"b":[1,2]}` both ways. -/
theorem C1_emission_independent_of_assignment_order :
    (∀ (ba : Bool) (fl : FloatLib) (k1 k2 : String) (f1 f2 : node → node), k1 ≠ k2 →
      emit ba fl ((node.default.modify k1 f1).modify k2 f2) =
        emit ba fl ((node.default.modify k2 f2).modify k1 f1) ∧
      ∀ t1 t2 : String, emit ba fl (f1 node.default) = Except.ok t1 →
        emit ba fl (f2 node.default) = Except.ok t2 →
        (key_lt k1 k2 = true ∧
          emit ba fl ((node.default.modify k1 f1).modify k2 f2) =
            Except.ok ("\x7b" ++ (member_text k1 t1 ++ "," ++ member_text k2 t2) ++ "\x7d")) ∨
        (key_lt k2 k1 = true ∧
          emit ba fl ((node.default.modify k1 f1).modify k2 f2) =
            Except.ok ("\x7b" ++ (member_text k2 t2 ++ "," ++ member_text k1 t1) ++ "\x7d"))) ∧
    (∀ (ba : Bool) (fl : FloatLib),
      emit ba fl ((node.default.modify "a" (fun c => c.assign_int 1)).modify "b"
          (fun c => c.assign_list node.of_int [1, 2])) =
        Except.ok "\x7b\"a\":1,\"b\":[1,2]\x7d" ∧
      emit ba fl ((node.default.modify "b" (fun c => c.assign_list node.of_int [1, 2])).modify "a"
          (fun c => c.assign_int 1)) =
        Except.ok "\x7b\"a\":1,\"b\":[1,2]\x7d") := by
  refine ⟨?_, fun ba fl => ⟨?_, ?_⟩⟩
  · intro ba fl k1 k2 f1 f2 hne
    rw [modify_default, modify_default]
    by_cases h : key_lt k1 k2 = true
    · rw [modify_second_after _ _ h, modify_second_before _ _ h]
      exact ⟨rfl, fun t1 t2 h1 h2 => Or.inl ⟨h, emit_two_entries ba fl k1 k2 t1 t2 _ _ h1 h2⟩⟩
    · have h' : key_lt k2 k1 = true := by
        by_contra hc
        exact hne (key_lt_connex (Bool.eq_false_iff.mpr h) (Bool.eq_false_iff.mpr hc))
      rw [modify_second_before _ _ h', modify_second_after _ _ h']
      exact ⟨rfl, fun t1 t2 h1 h2 => Or.inr ⟨h', emit_two_entries ba fl k2 k1 t2 t1 _ _ h2 h1⟩⟩
  · rw [modify_default, modify_second_after _ _ (by decide)]
    exact emit_two_entries ba fl "a" "b" "1" "[1,2]" _ _ (emit_one ba fl) (emit_one_two ba fl)
  · rw [modify_default, modify_second_before _ _ (by decide)]
    exact emit_two_entries ba fl "a" "b" "1" "[1,2]" _ _ (emit_one ba fl) (emit_one_two ba fl)

theorem C1_witness :
    ("x" : String) ≠ "ab" ∧
    emit false ⟨fun _ _ => "", fun _ _ _ => 0⟩
        ((node.default.modify "x" (fun c => c.assign_bool true)).modify "ab"
          (fun c => c.assign_string "s")) =
      emit false ⟨fun _ _ => "", fun _ _ _ => 0⟩
        ((node.default.modify "ab" (fun c => c.assign_string "s")).modify "x"
          (fun c => c.assign_bool true)) :=
  ⟨by decide,
   (C1_emission_independent_of_assignment_order.1 false ⟨fun _ _ => "", fun _ _ _ => 0⟩ "x" "ab"
      (fun c => c.assign_bool true) (fun c => c.assign_string "s") (by decide)).1⟩


/-! ## C2: chained subscripts build nested objects -/

theorem node.copy_eq (x : node) : x.copy = x := by
  cases x; rfl

theorem static_cast_of_holds (T : IntType) (v : Int) (hbits : 0 < T.bits)
    (h : T.holds v) : static_cast T v = v := by
  unfold IntType.holds at h
  unfold static_cast
  have hpow : (2 : Int) ^ T.bits = 2 * (2 : Int) ^ (T.bits - 1) := by
    obtain ⟨b, hb⟩ : ∃ b, T.bits = b + 1 := ⟨T.bits - 1, by omega⟩
    rw [hb]; simp [pow_succ]; ring
  have hpos : (0 : Int) < (2 : Int) ^ (T.bits - 1) := by positivity
  generalize (2 : Int) ^ (T.bits - 1) = half at *
  cases hs : T.signed with
  | false =>
    simp only [hs, Bool.false_eq_true, if_false] at h
    simp only [Bool.false_and, if_false, Bool.false_eq_true]
    rw [hpow] at h ⊢
    exact Int.emod_eq_of_lt h.1 h.2
  | true =>
    simp only [hs, if_true] at h
    rw [hpow]
    by_cases hv : 0 ≤ v
    · have hr : v % (2 * half) = v := Int.emod_eq_of_lt hv (by omega)
      simp only [hr, Bool.true_and, decide_eq_true_eq]
      rw [if_neg (by omega)]
    · have hr : v % (2 * half) = v + 2 * half := by
        rw [← Int.add_mul_emod_self_left v (2 * half) 1, mul_one]
        exact Int.emod_eq_of_lt (by omega) (by omega)
      simp only [hr, Bool.true_and, decide_eq_true_eq]
      rw [if_pos (by omega)]
      omega

/-- C2: on a Null node, `n[a][b] = v` for an `int` `v` leaves `n` an object with the one
entry `a`, `n[a]` an object with the one entry `b`, and `n[a][b]` a number of kind `I`
whose `get_int()` is `v`. -/
theorem C2_chained_subscript_assignment (fl : FloatLib) (a b : String) (v : Int)
    (hv : IntType.int.holds v) :
    ∃ c d : node,
      (node.default.modify a (fun x => x.modify b (fun y => y.assign_int v))).value_type =
        NodeType.OBJECT ∧
      (node.default.modify a (fun x => x.modify b (fun y => y.assign_int v))).object_value =
        [(a, c)] ∧
      ((node.default.modify a (fun x => x.modify b (fun y => y.assign_int v))).at_key a).1 =
        Except.ok c ∧
      c.value_type = NodeType.OBJECT ∧
      c.object_value = [(b, d)] ∧
      (c.at_key b).1 = Except.ok d ∧
      d.value_type = NodeType.NUMBER ∧
      d.number_type = NodeNumberType.I ∧
      d.get_int fl = Except.ok v := by
  refine ⟨node.default.modify b (fun y => y.assign_int v), node.default.assign_int v, ?_⟩
  rw [modify_default, modify_default]
  refine ⟨rfl, rfl, ?_, rfl, rfl, ?_, rfl, rfl, ?_⟩
  · simp [node.at_key, map_find]
  · simp [node.at_key, map_find]
  · simp only [node.get_int, node.get_number, node.assign_int, node.default]
    rw [static_cast_of_holds IntType.int v (by decide) hv]

theorem C2_witness :
    ∃ c d : node,
      (node.default.modify "a" (fun x => x.modify "b" (fun y => y.assign_int 5))).value_type =
        NodeType.OBJECT ∧
      (node.default.modify "a" (fun x => x.modify "b" (fun y => y.assign_int 5))).object_value =
        [("a", c)] ∧
      ((node.default.modify "a" (fun x => x.modify "b" (fun y => y.assign_int 5))).at_key "a").1 =
        Except.ok c ∧
      c.value_type = NodeType.OBJECT ∧
      c.object_value = [("b", d)] ∧
      (c.at_key "b").1 = Except.ok d ∧
      d.value_type = NodeType.NUMBER ∧
      d.number_type = NodeNumberType.I ∧
      d.get_int ⟨fun _ _ => "", fun _ _ _ => 0⟩ = Except.ok 5 :=
  C2_chained_subscript_assignment ⟨fun _ _ => "", fun _ _ _ => 0⟩ "a" "b" 5 (by decide)


/-! ## C3: keyed subscript -/

theorem subscript_of_object (n : node) (k : String) (h : n.value_type = NodeType.OBJECT) :
    n.subscript k = { n with object_value := map_insert k node.default n.object_value } := by
  simp [node.subscript, h]

theorem map_find_insert_self {α : Type} (k : String) (v : α) (m : List (String × α))
    (hv : map_valid m) :
    map_find k (map_insert k v m) = some ((map_find k m).getD v) := by
  cases hf : map_find k m with
  | none => simpa using map_find_insert_absent k v m hf
  | some c =>
    rw [map_insert_present k v m hv (by simp [hf]), hf]
    rfl

/-- C3: for a node built by the public operations, `n[k]` leaves an object; a node that
was no object gets the one entry `k -> Null` and loses its other payloads; an object gets
the entry `k -> Null` exactly when `k` was absent and is otherwise unchanged; every
entry of the object from before, one for `k` included, is still there with its value.
The returned reference always exists. -/
theorem C3_keyed_subscript (n : node) (k : String) (hb : Built n) :
    (n.subscript k).value_type = NodeType.OBJECT ∧
    (n.value_type ≠ NodeType.OBJECT →
      (n.subscript k).object_value = [(k, node.default)] ∧
      (n.subscript k).string_value = "" ∧ (n.subscript k).array_value = [] ∧
      (n.subscript k).number_type = NodeNumberType.N) ∧
    (n.value_type = NodeType.OBJECT → map_find k n.object_value = none →
      (n.subscript k).object_value = map_insert k node.default n.object_value ∧
      map_find k (n.subscript k).object_value = some node.default) ∧
    (n.value_type = NodeType.OBJECT → (map_find k n.object_value).isSome = true →
      n.subscript k = n) ∧
    (n.value_type = NodeType.OBJECT → ∀ (k' : String) (c : node),
      map_find k' n.object_value = some c →
      map_find k' (n.subscript k).object_value = some c) ∧
    (∃ c, n.subscript_ref k = some c) := by
  have hvalid := hb.map_valid
  have hinact := hb.inactive_empty
  refine ⟨?_, ?_, ?_, ?_, ?_, ?_⟩
  · by_cases ht : n.value_type = NodeType.OBJECT <;> simp [node.subscript, ht]
  · intro ht
    have hempty := hinact.2.1 ht
    simp [node.subscript, ht, hempty, map_insert]
  · intro ht habs
    rw [subscript_of_object n k ht]
    exact ⟨rfl, map_find_insert_absent k node.default n.object_value habs⟩
  · intro ht hpres
    rw [subscript_of_object n k ht, map_insert_present k node.default n.object_value hvalid hpres]
    cases n; rfl
  · intro ht k' c hc
    rw [subscript_of_object n k ht]
    by_cases hk : k' = k
    · subst hk
      simp only
      rw [map_find_insert_self k' node.default n.object_value hvalid, hc]
      rfl
    · simp only
      rw [map_find_insert_ne k k' node.default hk, hc]
  · unfold node.subscript_ref
    by_cases ht : n.value_type = NodeType.OBJECT
    · rw [subscript_of_object n k ht]
      exact ⟨_, map_find_insert_self k node.default n.object_value hvalid⟩
    · have hempty := hinact.2.1 ht
      refine ⟨node.default, ?_⟩
      simp [node.subscript, ht, hempty, map_insert, map_find]

theorem C3_witness :
    ((node.of_string "text").subscript "k").value_type = NodeType.OBJECT ∧
    ((node.of_string "text").subscript "k").object_value = [("k", node.default)] :=
  ⟨(C3_keyed_subscript (node.of_string "text") "k" (Built.of_string "text")).1,
   ((C3_keyed_subscript (node.of_string "text") "k" (Built.of_string "text")).2.1
      (by decide)).1⟩


/-! ## C4: push_back -/

theorem push_back_first (n x : node) (h : n.value_type ≠ NodeType.ARRAY) :
    n.push_back x =
      { n with value_type := NodeType.ARRAY, number_type := NodeNumberType.N,
               string_value := "", object_value := [], array_value := [x] } := by
  simp [node.push_back, h, node.copy_eq]

theorem push_back_later (n x : node) (h : n.value_type = NodeType.ARRAY) :
    n.push_back x = { n with array_value := n.array_value ++ [x] } := by
  simp [node.push_back, h, node.copy_eq]

theorem push_back_self_first (n : node) (h : n.value_type ≠ NodeType.ARRAY) :
    n.push_back Ref.self =
      { n with value_type := NodeType.ARRAY, number_type := NodeNumberType.N,
               string_value := "", object_value := [],
               array_value :=
                 [{ n with value_type := NodeType.ARRAY, number_type := NodeNumberType.N,
                           string_value := "", object_value := [] }] } := by
  simp [node.push_back, h, node.copy_eq]

theorem foldl_push_back_array :
    ∀ (xs : List node) (n : node), n.value_type = NodeType.ARRAY →
      xs.foldl (fun s x => s.push_back x) n = { n with array_value := n.array_value ++ xs }
  | [], n, _ => by
    cases n; simp
  | x :: xs, n, h => by
    simp only [List.foldl_cons]
    rw [push_back_later n x h,
      foldl_push_back_array xs { n with array_value := n.array_value ++ [x] } h]
    simp

/-- C4 (the code departs from the claim when the pushed node is the receiver itself): on
a node that is no array, `push_back(x1)`, ..., `push_back(xm)` (m ≥ 1) of nodes apart from
the receiver leave an array of size m whose element i is `x(i+1)`, the first call
dropping what the node held and every later call appending at the end.  But
`n.push_back(n)` on a node that is no array retags and clears `n` before it copies the
argument, so the element stored is the retagged, cleared node and not the node pushed; on
an array the same call stores the array as it was. -/
theorem C4_push_back_sequence (n : node) (xs : List node)
    (htag : n.value_type ≠ NodeType.ARRAY) (hne : xs ≠ []) :
    ((xs.foldl (fun s x => s.push_back x) n).value_type = NodeType.ARRAY ∧
      (xs.foldl (fun s x => s.push_back x) n).size = xs.length ∧
      (xs.foldl (fun s x => s.push_back x) n).array_value = xs ∧
      (∀ (i : Nat) (h : i < xs.length),
        ((xs.foldl (fun s x => s.push_back x) n).at i).1 = Except.ok (xs.get ⟨i, h⟩) ∧
        (xs.foldl (fun s x => s.push_back x) n).subscript_at i = Except.ok (xs.get ⟨i, h⟩)) ∧
      (∀ x : node, (n.push_back x).value_type = NodeType.ARRAY ∧
        (n.push_back x).array_value = [x] ∧ (n.push_back x).string_value = "" ∧
        (n.push_back x).object_value = [] ∧
        (n.push_back x).number_type = NodeNumberType.N) ∧
      (∀ m x : node, m.value_type = NodeType.ARRAY →
        (m.push_back x).value_type = NodeType.ARRAY ∧
        (m.push_back x).array_value = m.array_value ++ [x])) ∧
    ((n.push_back Ref.self).value_type = NodeType.ARRAY ∧
      (n.push_back Ref.self).size = 1 ∧
      (n.push_back Ref.self).array_value =
        [{ n with value_type := NodeType.ARRAY, number_type := NodeNumberType.N,
                  string_value := "", object_value := [] }] ∧
      (n.push_back Ref.self).array_value ≠ [n] ∧
      (Built n → ∀ c ∈ (n.push_back Ref.self).array_value,
        c.value_type = NodeType.ARRAY ∧ c.array_value = [])) ∧
    (∀ m : node, m.value_type = NodeType.ARRAY →
      (m.push_back Ref.self).array_value = m.array_value ++ [m]) := by
  refine ⟨?_, ?_, ?_⟩
  · obtain ⟨x, rest, rfl⟩ := List.exists_cons_of_ne_nil hne
    have hfold : (x :: rest).foldl (fun s x => s.push_back x) n =
        { n with value_type := NodeType.ARRAY, number_type := NodeNumberType.N,
                 string_value := "", object_value := [], array_value := x :: rest } := by
      simp only [List.foldl_cons]
      rw [push_back_first n x htag,
        foldl_push_back_array rest
          { n with value_type := NodeType.ARRAY, number_type := NodeNumberType.N,
                   string_value := "", object_value := [], array_value := [x] } rfl]
      simp
    rw [hfold]
    refine ⟨rfl, ?_, rfl, ?_, ?_, ?_⟩
    · simp [node.size]
    · intro i h
      have hget : (x :: rest)[i]? = some ((x :: rest).get ⟨i, h⟩) := by
        simp [List.getElem?_eq_getElem h]
      constructor
      · simp only [node.at, if_true, hget]
      · simp only [node.subscript_at, hget]
    · intro y
      rw [push_back_first n y htag]
      exact ⟨rfl, rfl, rfl, rfl, rfl⟩
    · intro m y hm
      rw [push_back_later m y hm]
      exact ⟨hm, rfl⟩
  · rw [push_back_self_first n htag]
    refine ⟨rfl, ?_, rfl, ?_, ?_⟩
    · simp [node.size]
    · intro h
      have h1 := congrArg (List.map node.value_type) h
      simp only [List.map_cons, List.map_nil, List.cons.injEq, and_true] at h1
      exact htag h1.symm
    · intro hb c hc
      simp only [List.mem_singleton] at hc
      rw [hc]
      exact ⟨rfl, hb.inactive_empty.2.2 htag⟩
  · intro m hm
    simp [node.push_back, hm, node.copy_eq]

theorem C4_witness :
    ([node.of_int 1, node.of_string "s"].foldl (fun s x => s.push_back x)
        (node.of_bool true)).array_value = [node.of_int 1, node.of_string "s"] ∧
    ((node.of_int 5).push_back Ref.self).array_value =
      [{ node.of_int 5 with value_type := NodeType.ARRAY, number_type := NodeNumberType.N,
                            string_value := "", object_value := [] }] ∧
    ((node.of_int 5).push_back Ref.self).array_value ≠ [node.of_int 5] :=
  ⟨(C4_push_back_sequence (node.of_bool true) [node.of_int 1, node.of_string "s"]
      (by decide) (by simp)).1.2.2.1,
   (C4_push_back_sequence (node.of_int 5) [node.default] (by decide) (by simp)).2.1.2.2.1,
   (C4_push_back_sequence (node.of_int 5) [node.default] (by decide) (by simp)).2.1.2.2.2.1⟩

/-! ## C5 and C6: bounds-checked access -/

/-- C5: `at(i)` returns element `i` exactly when the node is an array and `i < size()`;
otherwise it throws `std::out_of_range`; the node is the same afterwards. -/
theorem C5_at_index (n : node) (i : Nat) :
    (∀ c : node, (n.at i).1 = Except.ok c ↔
      (n.value_type = NodeType.ARRAY ∧ i < n.size ∧ n.array_value[i]? = some c)) ∧
    (n.value_type = NodeType.ARRAY → i < n.size →
      ∃ c, n.array_value[i]? = some c ∧ (n.at i).1 = Except.ok c) ∧
    (¬ (n.value_type = NodeType.ARRAY ∧ i < n.size) →
      (n.at i).1 = Except.error Exception.out_of_range) ∧
    (n.at i).2 = n := by
  by_cases ht : n.value_type = NodeType.ARRAY
  · have hsize : n.size = n.array_value.length := by simp [node.size, ht]
    by_cases hi : i < n.array_value.length
    · have hget : n.array_value[i]? = some (n.array_value[i]) := List.getElem?_eq_getElem hi
      refine ⟨?_, ?_, ?_, ?_⟩
      · intro c
        simp [node.at, ht, hget, hsize, hi]
      · intro _ _
        exact ⟨_, hget, by simp [node.at, ht, hget]⟩
      · intro hneg
        exact absurd ⟨ht, hsize ▸ hi⟩ hneg
      · simp [node.at, ht, hget]
    · have hget : n.array_value[i]? = none := List.getElem?_eq_none (by omega)
      refine ⟨?_, ?_, ?_, ?_⟩
      · intro c
        simp [node.at, ht, hget]
      · intro _ hlt
        exact absurd (hsize ▸ hlt) hi
      · intro _
        simp [node.at, ht, hget]
      · simp [node.at, ht, hget]
  · refine ⟨?_, ?_, ?_, ?_⟩
    · intro c
      simp [node.at, ht]
    · intro h
      exact absurd h ht
    · intro _
      simp [node.at, ht]
    · simp [node.at, ht]

/-- C6: `at(key)` returns the value bound to the key exactly when the node is an object
and the key is present; otherwise it throws `std::out_of_range`; it never inserts and
never retags: the node is the same afterwards. -/
theorem C6_at_key (n : node) (k : String) :
    (∀ c : node, (n.at_key k).1 = Except.ok c ↔
      (n.value_type = NodeType.OBJECT ∧ map_find k n.object_value = some c)) ∧
    (¬ (n.value_type = NodeType.OBJECT ∧ (map_find k n.object_value).isSome = true) →
      (n.at_key k).1 = Except.error Exception.out_of_range) ∧
    (n.at_key k).2 = n := by
  by_cases ht : n.value_type = NodeType.OBJECT
  · cases hf : map_find k n.object_value with
    | none =>
      refine ⟨?_, ?_, ?_⟩
      · intro c; simp [node.at_key, ht, hf]
      · intro _; simp [node.at_key, ht, hf]
      · simp [node.at_key, ht, hf]
    | some d =>
      refine ⟨?_, ?_, ?_⟩
      · intro c; simp [node.at_key, ht, hf]
      · intro hneg; exact absurd ⟨ht, by simp⟩ hneg
      · simp [node.at_key, ht, hf]
  · refine ⟨?_, ?_, ?_⟩
    · intro c; simp [node.at_key, ht]
    · intro _; simp [node.at_key, ht]
    · simp [node.at_key, ht]


theorem C5_witness :
    (node.default.at 0).1 = Except.error Exception.out_of_range ∧
    ((node.default.push_back (node.of_int 1)).at 0).1 = Except.ok (node.of_int 1) :=
  ⟨(C5_at_index node.default 0).2.2.1 (by decide),
   ((C5_at_index (node.default.push_back (node.of_int 1)) 0).1 (node.of_int 1)).mpr
     ⟨by decide, by decide, rfl⟩⟩

theorem C6_witness :
    ((node.of_int 3).at_key "k").1 = Except.error Exception.out_of_range ∧
    ((node.default.insert_key "k" (node.of_int 1)).at_key "k").1 = Except.ok (node.of_int 1) :=
  ⟨(C6_at_key (node.of_int 3) "k").2.1 (by decide),
   ((C6_at_key (node.default.insert_key "k" (node.of_int 1)) "k").1 (node.of_int 1)).mpr
     ⟨by decide, rfl⟩⟩

/-! ## C7: keyed insert -/

/-- C7, as stated, fails: `insert("a", 2)` on the object holding `a -> 1` leaves `a`
bound to 1. -/
theorem C7_counterexample :
    (node.default.insert_key "a" (node.of_int 1)).value_type = NodeType.OBJECT ∧
    map_find "a"
        ((node.default.insert_key "a" (node.of_int 1)).insert_key "a"
          (node.of_int 2)).object_value =
      some (node.of_int 1) ∧
    map_find "a"
        ((node.default.insert_key "a" (node.of_int 1)).insert_key "a"
          (node.of_int 2)).object_value ≠
      some (node.of_int 2) := by
  have h2 : map_find "a"
        ((node.default.insert_key "a" (node.of_int 1)).insert_key "a"
          (node.of_int 2)).object_value = some (node.of_int 1) := rfl
  refine ⟨rfl, h2, ?_⟩
  intro h
  rw [h2] at h
  have h3 := congrArg node.storage (Option.some.inj h)
  simp [node.of_int, node.default] at h3

/-- C7 (amended): on an object, `insert(k, v)` binds `k` to `v` when `k` was absent; when
`k` was already bound the object is left as it was, the old value kept; every entry
under another key is unchanged. -/
theorem C7_insert_key (n : node) (k : String) (v : node)
    (htag : n.value_type = NodeType.OBJECT) (hmap : map_valid n.object_value) :
    (n.insert_key k v).value_type = NodeType.OBJECT ∧
    (map_find k n.object_value = none →
      map_find k (n.insert_key k v).object_value = some v) ∧
    ((map_find k n.object_value).isSome = true → n.insert_key k v = n) ∧
    (∀ k' : String, k' ≠ k →
      map_find k' (n.insert_key k v).object_value = map_find k' n.object_value) := by
  have hins : n.insert_key k v = { n with object_value := map_insert k v n.object_value } := by
    simp [node.insert_key, htag, node.copy_eq]
  rw [hins]
  refine ⟨htag, ?_, ?_, ?_⟩
  · intro habs
    exact map_find_insert_absent k v n.object_value habs
  · intro hpres
    rw [map_insert_present k v n.object_value hmap hpres]
    cases n; rfl
  · intro k' hk
    exact map_find_insert_ne k k' v hk n.object_value

theorem C7_witness :
    map_find "b"
        ((node.default.insert_key "a" (node.of_int 1)).insert_key "b"
          (node.of_int 2)).object_value =
      some (node.of_int 2) ∧
    (node.default.insert_key "a" (node.of_int 1)).insert_key "a" (node.of_int 2) =
      node.default.insert_key "a" (node.of_int 1) :=
  ⟨(C7_insert_key (node.default.insert_key "a" (node.of_int 1)) "b" (node.of_int 2)
      (by decide) (by decide)).2.1 rfl,
   (C7_insert_key (node.default.insert_key "a" (node.of_int 1)) "a" (node.of_int 2)
      (by decide) (by decide)).2.2.1 rfl⟩

/-! ## C11: scalar assignment drops the children -/

/-- C11: after any scalar assignment, whatever the node held, the tag is that of the
scalar, the array and object payloads are empty, `size()` is 0 for a number or boolean
and the string's size for a string, and `at` finds no child. -/
theorem C11_scalar_assignment_discards_children (n : node) (s : Scalar) :
    (n.assign_scalar s).value_type = s.tag ∧
    (n.assign_scalar s).array_value = [] ∧
    (n.assign_scalar s).object_value = [] ∧
    (∀ v : String, s = Scalar.string v →
      (n.assign_scalar s).size = v.utf8ByteSize ∧ (n.assign_scalar s).string_value = v) ∧
    ((∀ v : String, s ≠ Scalar.string v) →
      (n.assign_scalar s).size = 0 ∧ (n.assign_scalar s).string_value = "") ∧
    (∀ i : Nat, ((n.assign_scalar s).at i).1 = Except.error Exception.out_of_range) ∧
    (∀ k : String, ((n.assign_scalar s).at_key k).1 = Except.error Exception.out_of_range) := by
  cases s with
  | integer K v =>
    cases K <;>
      exact ⟨rfl, rfl, rfl, (fun _ h => Scalar.noConfusion h), fun _ => ⟨rfl, rfl⟩, fun _ => rfl, fun _ => rfl⟩
  | float b =>
    exact ⟨rfl, rfl, rfl, (fun _ h => Scalar.noConfusion h), fun _ => ⟨rfl, rfl⟩, fun _ => rfl, fun _ => rfl⟩
  | double b =>
    exact ⟨rfl, rfl, rfl, (fun _ h => Scalar.noConfusion h), fun _ => ⟨rfl, rfl⟩, fun _ => rfl, fun _ => rfl⟩
  | ldouble b =>
    exact ⟨rfl, rfl, rfl, (fun _ h => Scalar.noConfusion h), fun _ => ⟨rfl, rfl⟩, fun _ => rfl, fun _ => rfl⟩
  | bool b =>
    exact ⟨rfl, rfl, rfl, (fun _ h => Scalar.noConfusion h), fun _ => ⟨rfl, rfl⟩, fun _ => rfl, fun _ => rfl⟩
  | string w =>
    refine ⟨rfl, rfl, rfl, ?_, fun h => absurd rfl (h w), fun _ => rfl, fun _ => rfl⟩
    intro v hv
    cases hv
    exact ⟨rfl, rfl⟩

theorem C11_witness :
    (((node.default.modify "a" (fun c => c.assign_int 1)).assign_scalar
        (Scalar.string "xyz")).size = 3) ∧
    (((node.default.push_back (node.of_int 1)).assign_scalar
        (Scalar.integer IntKind.long 7)).size = 0) :=
  ⟨((C11_scalar_assignment_discards_children
      (node.default.modify "a" (fun c => c.assign_int 1)) (Scalar.string "xyz")).2.2.2.1
      "xyz" rfl).1,
   ((C11_scalar_assignment_discards_children
      (node.default.push_back (node.of_int 1)) (Scalar.integer IntKind.long 7)).2.2.2.2.1
      (fun _ h => Scalar.noConfusion h)).1⟩

/-! ## C12: numeric reads convert at read time -/

theorem get_number_eq_as (n : node) (fl : FloatLib) (T : IntType) :
    n.get_number fl T = n.get_number_as (T.arithmetic fl) := by
  unfold node.get_number node.get_number_as
  cases n.number_type <;> cases n.storage <;> rfl

theorem get_number_of_member (n : node) (fl : FloatLib) (K : IntKind) (v : Int) (T : IntType)
    (hk : n.number_type = K.number_type) (hs : n.storage = K.member v) :
    n.get_number fl T = Except.ok (static_cast T v) := by
  unfold node.get_number
  rw [hk, hs]
  cases K <;> rfl

theorem static_cast_emod (T : IntType) (v : Int) :
    static_cast T v % (2 : Int) ^ T.bits = v % (2 : Int) ^ T.bits := by
  unfold static_cast
  simp only
  split
  · rw [Int.sub_emod, Int.emod_self, sub_zero, Int.emod_emod, Int.emod_emod]
  · exact Int.emod_emod _ _

theorem static_cast_holds (T : IntType) (v : Int) (hbits : 0 < T.bits) :
    T.holds (static_cast T v) := by
  unfold IntType.holds static_cast
  have hpow : (2 : Int) ^ T.bits = 2 * (2 : Int) ^ (T.bits - 1) := by
    obtain ⟨b, hb⟩ : ∃ b, T.bits = b + 1 := ⟨T.bits - 1, by omega⟩
    rw [hb]; simp [pow_succ]; ring
  have hpos : (0 : Int) < (2 : Int) ^ (T.bits - 1) := by positivity
  simp only
  rw [hpow]
  generalize (2 : Int) ^ (T.bits - 1) = half at *
  have h0 : 0 ≤ v % (2 * half) := Int.emod_nonneg _ (by omega)
  have h1 : v % (2 * half) < 2 * half := Int.emod_lt_of_pos _ (by omega)
  generalize v % (2 * half) = r at *
  cases hs : T.signed with
  | false =>
    simp only [Bool.false_and, Bool.false_eq_true, if_false]
    exact ⟨h0, h1⟩
  | true =>
    simp only [Bool.true_and, decide_eq_true_eq, if_true]
    split <;> constructor <;> omega

theorem static_cast_unique (T : IntType) (v r : Int) (hbits : 0 < T.bits) (hr : T.holds r)
    (hmod : r % (2 : Int) ^ T.bits = v % (2 : Int) ^ T.bits) : static_cast T v = r := by
  have h1 : static_cast T r = r := static_cast_of_holds T r hbits hr
  have h2 : static_cast T r = static_cast T v := by
    unfold static_cast
    simp only [hmod]
  rw [← h2, h1]

/-- C12: a node constructed or assigned from a value `v` of an integer type `K` stores
`v` as it is under the kind of `K`, and `get_number<T>()` at an integer type `T` returns
`v` converted to `T` (modulo `2 ^ width`, in the signedness of `T`): the result is a
value of `T`, it is congruent to `v` modulo `2 ^ width(T)`, and it is the only such value;
read back at `K`, or at any `T` that holds `v`, it returns `v`. -/
theorem C12_integer_reads_cast_at_read_time (fl : FloatLib) (K : IntKind) (v : Int)
    (T : IntType) (n : node) (hv : K.type.holds v) :
    ((node.of_integer K v).value_type = NodeType.NUMBER ∧
      (node.of_integer K v).number_type = K.number_type ∧
      (node.of_integer K v).storage = K.member v) ∧
    ((n.assign_integer K v).value_type = NodeType.NUMBER ∧
      (n.assign_integer K v).number_type = K.number_type ∧
      (n.assign_integer K v).storage = K.member v) ∧
    (node.of_integer K v).get_number fl T = Except.ok (static_cast T v) ∧
    (n.assign_integer K v).get_number fl T = Except.ok (static_cast T v) ∧
    (node.of_integer K v).get_number_as (T.arithmetic fl) = Except.ok (static_cast T v) ∧
    (node.of_integer K v).get_number fl K.type = Except.ok v ∧
    (n.assign_integer K v).get_number fl K.type = Except.ok v ∧
    (0 < T.bits → T.holds v →
      (node.of_integer K v).get_number fl T = Except.ok v ∧
      (n.assign_integer K v).get_number fl T = Except.ok v) ∧
    (0 < T.bits →
      (∃ r : Int, (node.of_integer K v).get_number fl T = Except.ok r ∧
        (n.assign_integer K v).get_number fl T = Except.ok r ∧
        T.holds r ∧ r % (2 : Int) ^ T.bits = v % (2 : Int) ^ T.bits) ∧
      (∀ r : Int, T.holds r → r % (2 : Int) ^ T.bits = v % (2 : Int) ^ T.bits →
        (node.of_integer K v).get_number fl T = Except.ok r ∧
        (n.assign_integer K v).get_number fl T = Except.ok r)) := by
  have hc : (node.of_integer K v).value_type = NodeType.NUMBER ∧
      (node.of_integer K v).number_type = K.number_type ∧
      (node.of_integer K v).storage = K.member v := by
    cases K <;> exact ⟨rfl, rfl, rfl⟩
  have ha : (n.assign_integer K v).value_type = NodeType.NUMBER ∧
      (n.assign_integer K v).number_type = K.number_type ∧
      (n.assign_integer K v).storage = K.member v := by
    cases K <;> exact ⟨rfl, rfl, rfl⟩
  have hrc : ∀ T' : IntType,
      (node.of_integer K v).get_number fl T' = Except.ok (static_cast T' v) :=
    fun T' => get_number_of_member _ fl K v T' hc.2.1 hc.2.2
  have hra : ∀ T' : IntType,
      (n.assign_integer K v).get_number fl T' = Except.ok (static_cast T' v) :=
    fun T' => get_number_of_member _ fl K v T' ha.2.1 ha.2.2
  have hbits : 0 < K.type.bits := by cases K <;> decide
  have hself : static_cast K.type v = v := static_cast_of_holds K.type v hbits hv
  refine ⟨hc, ha, hrc T, hra T, ?_, ?_, ?_, ?_, ?_⟩
  · rw [← get_number_eq_as]; exact hrc T
  · rw [hrc, hself]
  · rw [hra, hself]
  · intro hT hTv
    rw [hrc, hra, static_cast_of_holds T v hT hTv]
    exact ⟨rfl, rfl⟩
  · intro hT
    constructor
    · exact ⟨static_cast T v, hrc T, hra T, static_cast_holds T v hT, static_cast_emod T v⟩
    · intro r hr hmod
      rw [hrc, hra, static_cast_unique T v r hT hr hmod]
      exact ⟨rfl, rfl⟩

theorem C12_witness :
    (node.of_integer IntKind.int (-1)).get_number ⟨fun _ _ => "", fun _ _ _ => 0⟩
        IntType.ushort = Except.ok 65535 ∧
    ((node.of_string "s").assign_integer IntKind.int (-1)).get_number
        ⟨fun _ _ => "", fun _ _ _ => 0⟩ IntType.llong = Except.ok (-1) ∧
    (node.of_integer IntKind.int 40000).get_number ⟨fun _ _ => "", fun _ _ _ => 0⟩
        IntType.short = Except.ok (-25536) ∧
    ((node.of_string "s").assign_integer IntKind.uint 4294967295).get_number
        ⟨fun _ _ => "", fun _ _ _ => 0⟩ IntType.int = Except.ok (-1) ∧
    (node.of_integer IntKind.llong (-4294967297)).get_number ⟨fun _ _ => "", fun _ _ _ => 0⟩
        IntType.int = Except.ok (-1) :=
  ⟨(C12_integer_reads_cast_at_read_time ⟨fun _ _ => "", fun _ _ _ => 0⟩ IntKind.int (-1)
      IntType.ushort (node.of_string "s") (by decide)).2.2.1,
   ((C12_integer_reads_cast_at_read_time ⟨fun _ _ => "", fun _ _ _ => 0⟩ IntKind.int (-1)
      IntType.llong (node.of_string "s") (by decide)).2.2.2.2.2.2.2.1 (by decide)
      (by decide)).2,
   (((C12_integer_reads_cast_at_read_time ⟨fun _ _ => "", fun _ _ _ => 0⟩ IntKind.int 40000
      IntType.short (node.of_string "s") (by decide)).2.2.2.2.2.2.2.2 (by decide)).2
      (-25536) (by decide) (by decide)).1,
   (((C12_integer_reads_cast_at_read_time ⟨fun _ _ => "", fun _ _ _ => 0⟩ IntKind.uint
      4294967295 IntType.int (node.of_string "s") (by decide)).2.2.2.2.2.2.2.2 (by decide)).2
      (-1) (by decide) (by decide)).2,
   (((C12_integer_reads_cast_at_read_time ⟨fun _ _ => "", fun _ _ _ => 0⟩ IntKind.llong
      (-4294967297) IntType.int (node.of_string "s") (by decide)).2.2.2.2.2.2.2.2
      (by decide)).2 (-1) (by decide) (by decide)).1⟩

/-! ## C13 and C14: permissive scalar reads -/

theorem scalar_agrees_of_not_scalar (n : node) (h1 : n.value_type ≠ NodeType.NUMBER)
    (h2 : n.value_type ≠ NodeType.BOOLEAN) (h3 : n.number_type = NodeNumberType.N) :
    n.scalar_agrees :=
  ⟨fun h => absurd h h1, fun _ => h3, fun h => absurd h h2⟩

theorem Built.scalar_agrees {n : node} (h : Built n) : n.scalar_agrees := by
  induction h with
  | default => exact scalar_agrees_of_not_scalar _ (by intro h; cases h) (by intro h; cases h) rfl
  | of_string v => exact scalar_agrees_of_not_scalar _ (by intro h; cases h) (by intro h; cases h) rfl
  | of_bool v => exact ⟨(fun h => by cases h), (fun _ => rfl), (fun _ => ⟨v, rfl⟩)⟩
  | assign_bool v _ _ => exact ⟨(fun h => by cases h), (fun _ => rfl), (fun _ => ⟨v, rfl⟩)⟩
  | assign_string v _ _ => exact scalar_agrees_of_not_scalar _ (by intro h; cases h) (by intro h; cases h) rfl
  | assign_list conv v _ _ _ =>
    exact scalar_agrees_of_not_scalar _ (by simp [node.assign_list])
      (by simp [node.assign_list]) rfl
  | assign_map conv v _ _ _ =>
    exact scalar_agrees_of_not_scalar _ (by simp [node.assign_map])
      (by simp [node.assign_map]) rfl
  | copy _ ih => exact ih
  | assign_copy _ _ ihc _ => exact ihc
  | @clear m _ ih =>
    unfold node.clear
    split
    · exact ih
    · split
      · exact ih
      · split
        · exact ih
        · exact ih
  | @push_back x m _ _ _ ih =>
    unfold node.push_back
    split
    · exact ih
    · exact scalar_agrees_of_not_scalar _ (by simp) (by simp) rfl
  | @insert x m _ _ _ ih =>
    unfold node.insert
    split
    · exact ih
    · exact scalar_agrees_of_not_scalar _ (by simp) (by simp) rfl
  | @insert_at pos x m r _ _ hr _ ih =>
    unfold node.insert_at at hr
    split at hr
    · split at hr
      · cases hr; exact ih
      · cases hr
    · cases hr
      exact scalar_agrees_of_not_scalar _ (by simp) (by simp) rfl
  | @insert_key key x m _ _ _ ih =>
    unfold node.insert_key
    split
    · exact ih
    · exact scalar_agrees_of_not_scalar _ (by simp) (by simp) rfl
  | @push_back_self m _ ih =>
    unfold node.push_back
    split
    · exact ih
    · exact scalar_agrees_of_not_scalar _ (by simp) (by simp) rfl
  | @insert_self m _ ih =>
    unfold node.insert
    split
    · exact ih
    · exact scalar_agrees_of_not_scalar _ (by simp) (by simp) rfl
  | @insert_at_self pos m r _ hr ih =>
    unfold node.insert_at at hr
    split at hr
    · split at hr
      · cases hr; exact ih
      · cases hr
    · cases hr
      exact scalar_agrees_of_not_scalar _ (by simp) (by simp) rfl
  | @insert_key_self key m _ ih =>
    unfold node.insert_key
    split
    · exact ih
    · exact scalar_agrees_of_not_scalar _ (by simp) (by simp) rfl
  | @subscript key m _ ih =>
    unfold node.subscript
    by_cases ht : m.value_type = NodeType.OBJECT
    · simp only [ne_eq, ht, not_true_eq_false, if_false]
      exact scalar_agrees_of_not_scalar _ (by simp) (by simp)
        (ih.2.1 (by rw [ht]; intro h; cases h))
    · simp only [ne_eq, ht, not_false_eq_true, if_true]
      exact scalar_agrees_of_not_scalar _ (by simp) (by simp) rfl
  | set_key key _ _ hp _ ih => exact ih
  | set_at id _ _ hlt _ ih => exact ih
  | _ =>
    exact ⟨(fun _ => ⟨(by intro h; cases h), rfl⟩), (fun h => absurd rfl h),
      (fun h => by cases h)⟩

theorem get_number_as_of_N {α : Type} (n : node) (T : Arithmetic α)
    (h : n.number_type = NodeNumberType.N) : n.get_number_as T = Except.ok T.zero := by
  unfold node.get_number_as
  rw [h]

/-- C13: on a node built by the public operations whose tag is not Number,
`get_number<T>()` returns `T()` at every arithmetic type `T` and does not fail. -/
theorem C13_numeric_read_of_non_number {α : Type} (T : Arithmetic α) (fl : FloatLib)
    (U : IntType) (n : node) (hb : Built n) (htag : n.value_type ≠ NodeType.NUMBER) :
    n.get_number_as T = Except.ok T.zero ∧
    n.get_number fl U = Except.ok 0 ∧
    n.get_int fl = Except.ok 0 := by
  have hN : n.number_type = NodeNumberType.N := hb.scalar_agrees.2.1 htag
  refine ⟨get_number_as_of_N n T hN, ?_, ?_⟩
  · rw [get_number_eq_as]; exact get_number_as_of_N n _ hN
  · unfold node.get_int; rw [get_number_eq_as]; exact get_number_as_of_N n _ hN

theorem C13_witness :
    ((node.of_int 5).push_back (node.of_int 6)).get_int ⟨fun _ _ => "", fun _ _ _ => 0⟩ =
      Except.ok 0 ∧
    ((node.of_int 5).assign_bool true).get_number_as (Arithmetic.bool (fun _ _ => true)) =
      Except.ok false :=
  ⟨(C13_numeric_read_of_non_number (Arithmetic.bool (fun _ _ => true))
      ⟨fun _ _ => "", fun _ _ _ => 0⟩ IntType.int ((node.of_int 5).push_back (node.of_int 6))
      (Built.push_back (Built.of_int 6) (Built.of_int 5)) (by decide)).2.2,
   (C13_numeric_read_of_non_number (Arithmetic.bool (fun _ _ => true))
      ⟨fun _ _ => "", fun _ _ _ => 0⟩ IntType.int ((node.of_int 5).assign_bool true)
      (Built.assign_bool true (Built.of_int 5)) (by decide)).1⟩

/-- C14: `get_bool()` (and `operator bool`) returns the stored flag of a boolean and
`false` for any other tag; `get_string()` (and `operator std::string`) returns the stored
string of a string and the empty string for any other tag; on built nodes the boolean
read never fails; after assigning `b` (resp. `s`) the read returns `b` (resp. `s`). -/
theorem C14_boolean_and_string_reads (n : node) :
    (n.value_type ≠ NodeType.BOOLEAN →
      n.get_bool = Except.ok false ∧ n.operator_bool = Except.ok false) ∧
    (∀ b : Bool, n.value_type = NodeType.BOOLEAN → n.storage = Storage.boolean_value b →
      n.get_bool = Except.ok b ∧ n.operator_bool = Except.ok b) ∧
    (Built n → ∃ b : Bool, n.get_bool = Except.ok b ∧ n.operator_bool = Except.ok b ∧
      (n.value_type = NodeType.BOOLEAN → n.storage = Storage.boolean_value b)) ∧
    (n.value_type = NodeType.STRING →
      n.get_string = n.string_value ∧ n.operator_string = n.string_value) ∧
    (n.value_type ≠ NodeType.STRING → n.get_string = "" ∧ n.operator_string = "") ∧
    (∀ b : Bool, (n.assign_bool b).get_bool = Except.ok b ∧
      (node.of_bool b).get_bool = Except.ok b) ∧
    (∀ s : String, (n.assign_string s).get_string = s ∧ (node.of_string s).get_string = s) := by
  have hfalse : n.value_type ≠ NodeType.BOOLEAN →
      n.get_bool = Except.ok false ∧ n.operator_bool = Except.ok false := by
    intro h
    simp [node.get_bool, node.operator_bool, h]
  have hflag : ∀ b : Bool, n.value_type = NodeType.BOOLEAN →
      n.storage = Storage.boolean_value b →
      n.get_bool = Except.ok b ∧ n.operator_bool = Except.ok b := by
    intro b h hs
    simp [node.get_bool, node.operator_bool, h, hs]
  refine ⟨hfalse, hflag, ?_, ?_, ?_, ?_, ?_⟩
  · intro hb
    by_cases h : n.value_type = NodeType.BOOLEAN
    · obtain ⟨b, hs⟩ := hb.scalar_agrees.2.2 h
      exact ⟨b, (hflag b h hs).1, (hflag b h hs).2, fun _ => hs⟩
    · exact ⟨false, (hfalse h).1, (hfalse h).2, fun h' => absurd h' h⟩
  · intro h
    simp [node.get_string, node.operator_string, h]
  · intro h
    simp [node.get_string, node.operator_string, h]
  · intro b
    exact ⟨rfl, rfl⟩
  · intro s
    exact ⟨rfl, rfl⟩

theorem C14_witness :
    (node.of_int 3).get_bool = Except.ok false ∧
    (node.of_bool true).get_string = "" ∧
    ((node.of_int 3).assign_bool true).get_bool = Except.ok true :=
  ⟨((C14_boolean_and_string_reads (node.of_int 3)).1 (by decide)).1,
   ((C14_boolean_and_string_reads (node.of_bool true)).2.2.2.2.1 (by decide)).1,
   ((C14_boolean_and_string_reads ((node.of_int 3).assign_bool true)).2.1 true (by decide)
      rfl).1⟩

/-! ## C16: clear -/

/-- C16: `clear()` keeps the tag and the number kind; on a string, array or object it
empties that payload, so `size()` is 0, and leaves the other fields alone; on a null,
boolean or number it changes nothing. -/
theorem C16_clear (n : node) :
    n.clear.value_type = n.value_type ∧
    n.clear.number_type = n.number_type ∧
    n.clear.storage = n.storage ∧
    ((n.value_type = NodeType.STRING ∨ n.value_type = NodeType.ARRAY ∨
        n.value_type = NodeType.OBJECT) → n.clear.size = 0) ∧
    (n.value_type = NodeType.STRING →
      n.clear.array_value = n.array_value ∧ n.clear.object_value = n.object_value) ∧
    (n.value_type = NodeType.ARRAY →
      n.clear.string_value = n.string_value ∧ n.clear.object_value = n.object_value) ∧
    (n.value_type = NodeType.OBJECT →
      n.clear.string_value = n.string_value ∧ n.clear.array_value = n.array_value) ∧
    ((n.value_type = NodeType.NONE ∨ n.value_type = NodeType.BOOLEAN ∨
        n.value_type = NodeType.NUMBER) →
      n.clear = n ∧ n.clear.get_bool = n.get_bool ∧
      ∀ (fl : FloatLib) (T : IntType), n.clear.get_number fl T = n.get_number fl T) := by
  obtain ⟨vt, nt, st, s, o, a⟩ := n
  have hempty : "".utf8ByteSize = 0 := by decide
  cases vt <;> simp [node.clear, node.size, hempty]

theorem C16_witness :
    ((node.default.push_back (node.of_int 1)).clear.size = 0) ∧
    ((node.of_int 4).clear = node.of_int 4) :=
  ⟨(C16_clear (node.default.push_back (node.of_int 1))).2.2.2.1 (Or.inr (Or.inl rfl)),
   ((C16_clear (node.of_int 4)).2.2.2.2.2.2.2 (Or.inr (Or.inr rfl))).1⟩

/-! ## C17: positional insert -/

/-- C17 (the code departs from the claim when the inserted node is the receiver itself):
on an array with elements `xs`, `insert(pos, v)` with `pos ≤ |xs|` leaves
`xs[0..pos) ++ [v] ++ xs[pos..)`: one element more, `v` at index `pos`, the others in
their order, also when `v` is the receiver; on a node that is no array it leaves the
one-element array `[v]` whatever `pos` is, as `push_back` does, for `v` apart from the
receiver.  But `n.insert(pos, n)` on a node that is no array retags and clears `n` before
it copies the argument, as `push_back` does, so the element stored is the retagged,
cleared node and not the node inserted. -/
theorem C17_positional_insert (n : node) (pos : Nat) (v : node) :
    (n.value_type = NodeType.ARRAY → pos ≤ n.array_value.length →
      ∃ r : node, n.insert_at pos v = Except.ok r ∧
        r.value_type = NodeType.ARRAY ∧
        r.array_value = n.array_value.take pos ++ [v] ++ n.array_value.drop pos ∧
        r.size = n.size + 1 ∧
        r.array_value[pos]? = some v ∧
        (∀ i : Nat, i < pos → r.array_value[i]? = n.array_value[i]?) ∧
        (∀ i : Nat, pos ≤ i → r.array_value[i + 1]? = n.array_value[i]?)) ∧
    (n.value_type ≠ NodeType.ARRAY →
      n.insert_at pos v = Except.ok (n.push_back v) ∧
      (n.push_back v).value_type = NodeType.ARRAY ∧
      (n.push_back v).array_value = [v] ∧
      (n.push_back v).string_value = "" ∧ (n.push_back v).object_value = []) ∧
    (n.value_type = NodeType.ARRAY → pos ≤ n.array_value.length →
      n.insert_at pos Ref.self =
        Except.ok
          { n with array_value := n.array_value.take pos ++ [n] ++ n.array_value.drop pos }) ∧
    (n.value_type ≠ NodeType.ARRAY →
      n.insert_at pos Ref.self = Except.ok (n.push_back Ref.self) ∧
      (n.push_back Ref.self).value_type = NodeType.ARRAY ∧
      (n.push_back Ref.self).size = 1 ∧
      (n.push_back Ref.self).array_value =
        [{ n with value_type := NodeType.ARRAY, number_type := NodeNumberType.N,
                  string_value := "", object_value := [] }] ∧
      (n.push_back Ref.self).array_value ≠ [n] ∧
      (Built n → ∀ c ∈ (n.push_back Ref.self).array_value,
        c.value_type = NodeType.ARRAY ∧ c.array_value = [])) := by
  refine ⟨?_, ?_, ?_, ?_⟩
  · intro ht hpos
    refine ⟨{ n with array_value := n.array_value.take pos ++ v :: n.array_value.drop pos },
      ?_, ht, ?_, ?_, ?_, ?_, ?_⟩
    · simp [node.insert_at, ht, hpos, node.copy_eq]
    · simp
    · simp only [node.size, ht, if_true, List.length_append, List.length_take,
        List.length_cons, List.length_drop]
      omega
    · have hlen : (n.array_value.take pos).length = pos := by
        simp [List.length_take, hpos]
      simp only
      rw [List.getElem?_append_right (by omega), hlen]
      simp
    · intro i hi
      have hlen : (n.array_value.take pos).length = pos := by
        simp [List.length_take, hpos]
      simp only
      rw [List.getElem?_append_left (by omega), List.getElem?_take_of_lt hi]
    · intro i hi
      have hlen : (n.array_value.take pos).length = pos := by
        simp [List.length_take, hpos]
      simp only
      rw [List.getElem?_append_right (by omega), hlen]
      have h1 : i + 1 - pos = (i - pos) + 1 := by omega
      rw [h1, List.getElem?_cons_succ, List.getElem?_drop]
      congr 1
      omega
  · intro ht
    rw [push_back_first n v ht]
    refine ⟨?_, rfl, rfl, rfl, rfl⟩
    simp [node.insert_at, ht, node.copy_eq]
  · intro ht hpos
    simp [node.insert_at, ht, hpos, node.copy_eq]
  · intro ht
    rw [push_back_self_first n ht]
    refine ⟨?_, rfl, ?_, rfl, ?_, ?_⟩
    · simp [node.insert_at, ht, node.copy_eq]
    · simp [node.size]
    · intro h
      have h1 := congrArg (List.map node.value_type) h
      simp only [List.map_cons, List.map_nil, List.cons.injEq, and_true] at h1
      exact ht h1.symm
    · intro hb c hc
      simp only [List.mem_singleton] at hc
      rw [hc]
      exact ⟨rfl, hb.inactive_empty.2.2 ht⟩

theorem C17_witness :
    (∃ r : node,
      ((node.default.push_back (node.of_int 1)).push_back (node.of_int 3)).insert_at 1
          (node.of_int 2) = Except.ok r ∧
        r.value_type = NodeType.ARRAY ∧
        r.array_value =
          ((node.default.push_back (node.of_int 1)).push_back (node.of_int 3)).array_value.take 1
            ++ [node.of_int 2] ++
          ((node.default.push_back (node.of_int 1)).push_back (node.of_int 3)).array_value.drop 1 ∧
        r.size = ((node.default.push_back (node.of_int 1)).push_back (node.of_int 3)).size + 1 ∧
        r.array_value[1]? = some (node.of_int 2) ∧
        (∀ i : Nat, i < 1 → r.array_value[i]? =
          ((node.default.push_back (node.of_int 1)).push_back (node.of_int 3)).array_value[i]?) ∧
        (∀ i : Nat, 1 ≤ i → r.array_value[i + 1]? =
          ((node.default.push_back (node.of_int 1)).push_back (node.of_int 3)).array_value[i]?)) ∧
    (node.of_int 5).insert_at 7 (node.of_string "s") =
      Except.ok ((node.of_int 5).push_back (node.of_string "s")) ∧
    (node.of_int 5).insert_at 0 Ref.self = Except.ok ((node.of_int 5).push_back Ref.self) ∧
    ((node.of_int 5).push_back Ref.self).array_value =
      [{ node.of_int 5 with value_type := NodeType.ARRAY, number_type := NodeNumberType.N,
                            string_value := "", object_value := [] }] ∧
    ((node.of_int 5).push_back Ref.self).array_value ≠ [node.of_int 5] :=
  ⟨(C17_positional_insert ((node.default.push_back (node.of_int 1)).push_back (node.of_int 3)) 1
    (node.of_int 2)).1 (by decide) (by decide),
   ((C17_positional_insert (node.of_int 5) 7 (node.of_string "s")).2.1 (by decide)).1,
   ((C17_positional_insert (node.of_int 5) 0 node.default).2.2.2 (by decide)).1,
   ((C17_positional_insert (node.of_int 5) 0 node.default).2.2.2 (by decide)).2.2.2.1,
   ((C17_positional_insert (node.of_int 5) 0 node.default).2.2.2 (by decide)).2.2.2.2.1⟩

theorem utf8ByteSize_go_append : ∀ (a b : List Char),
    String.utf8ByteSize.go (a ++ b) = String.utf8ByteSize.go a + String.utf8ByteSize.go b
  | [], b => by simp [String.utf8ByteSize.go]
  | c :: cs, b => by
    have ih := utf8ByteSize_go_append cs b
    have hstep : String.utf8ByteSize.go (c :: cs ++ b) =
        String.utf8ByteSize.go (cs ++ b) + c.utf8Size := rfl
    have hstep2 : String.utf8ByteSize.go (c :: cs) =
        String.utf8ByteSize.go cs + c.utf8Size := rfl
    rw [hstep, hstep2, ih]
    omega

theorem utf8ByteSize_append (a b : String) :
    (a ++ b).utf8ByteSize = a.utf8ByteSize + b.utf8ByteSize := by
  cases a; cases b
  simp only [String.append, String.utf8ByteSize, HAppend.hAppend, Append.append]
  exact utf8ByteSize_go_append _ _
/-! ## C18: sequence assignment -/

theorem foldl_push_eq_map {T : Type} (conv : T → node) :
    ∀ (v : List T) (acc : List node),
      v.foldl (fun acc it => acc ++ [conv it]) acc = acc ++ v.map conv
  | [], acc => by simp
  | it :: rest, acc => by
    simp only [List.foldl_cons, List.map_cons]
    rw [foldl_push_eq_map conv rest (acc ++ [conv it])]
    simp

/-- C18: after `n = s` for a sequence `s` (initializer list or vector), whatever `n`
held, the tag is Array, the number kind is `N`, the string and object payloads are empty
and the array payload is the elements of `s` converted to nodes, in order; `size()` is
`|s|`. -/
theorem C18_sequence_assignment {T : Type} (conv : T → node) (n : node) (s : List T) :
    (n.assign_list conv s).value_type = NodeType.ARRAY ∧
    (n.assign_list conv s).number_type = NodeNumberType.N ∧
    (n.assign_list conv s).string_value = "" ∧
    (n.assign_list conv s).object_value = [] ∧
    (n.assign_list conv s).array_value = s.map conv ∧
    (n.assign_list conv s).size = s.length ∧
    (∀ (i : Nat) (h : i < s.length),
      (n.assign_list conv s).array_value[i]? = some (conv (s.get ⟨i, h⟩))) := by
  have harr : (n.assign_list conv s).array_value = s.map conv := by
    simp only [node.assign_list]
    rw [foldl_push_eq_map conv s []]
    simp
  refine ⟨rfl, rfl, rfl, rfl, harr, ?_, ?_⟩
  · have ht : (n.assign_list conv s).value_type = NodeType.ARRAY := rfl
    simp only [node.size, ht, if_true, harr, List.length_map]
  · intro i h
    rw [harr]
    simp [List.getElem?_eq_getElem h]

/-! ## C19 and C20: emission of booleans, strings and null -/

/-- C20: a string node emits a double quote, its payload as it is, and a double quote:
two characters (and two bytes) more than the payload, whatever the payload contains; a
null node emits `null`. -/
theorem C20_string_and_null_emission (ba : Bool) (fl : FloatLib) (n : node) :
    (n.value_type = NodeType.STRING →
      emit ba fl n = Except.ok ("\"" ++ n.string_value ++ "\"") ∧
      ∃ t : String, emit ba fl n = Except.ok t ∧
        t.data = '"' :: (n.string_value.data ++ ['"']) ∧
        t.length = n.string_value.length + 2 ∧
        t.utf8ByteSize = n.string_value.utf8ByteSize + 2) ∧
    (n.value_type = NodeType.NONE → emit ba fl n = Except.ok "null") := by
  obtain ⟨vt, nt, st, s, o, a⟩ := n
  constructor
  · intro ht
    simp only at ht
    subst ht
    have hemit : emit ba fl ⟨NodeType.STRING, nt, st, s, o, a⟩ = Except.ok ("\"" ++ s ++ "\"") := by
      simp only [emit]
    refine ⟨hemit, "\"" ++ s ++ "\"", hemit, ?_, ?_, ?_⟩
    · simp [String.data_append]
    · have hq : "\"".length = 1 := by decide
      simp only [String.length_append, hq]
      omega
    · have hq : "\"".utf8ByteSize = 1 := by decide
      simp only [utf8ByteSize_append, hq]
      omega
  · intro ht
    simp only at ht
    subst ht
    simp only [emit]

theorem C20_witness :
    emit false ⟨fun _ _ => "", fun _ _ _ => 0⟩ (node.of_string "a\"b\\c,\x7bd\x7d") =
      Except.ok "\"a\"b\\c,\x7bd\x7d\"" ∧
    emit false ⟨fun _ _ => "", fun _ _ _ => 0⟩ node.default = Except.ok "null" :=
  ⟨((C20_string_and_null_emission false ⟨fun _ _ => "", fun _ _ _ => 0⟩
      (node.of_string "a\"b\\c,\x7bd\x7d")).1 rfl).1,
   (C20_string_and_null_emission false ⟨fun _ _ => "", fun _ _ _ => 0⟩ node.default).2 rfl⟩

theorem C18_witness :
    ((node.default.push_back (node.of_int 9)).assign_list node.of_string ["a", "b"]).size = 2 ∧
    ((node.default.push_back (node.of_int 9)).assign_list node.of_string
        ["a", "b"]).array_value[1]? = some (node.of_string "b") :=
  ⟨(C18_sequence_assignment node.of_string (node.default.push_back (node.of_int 9))
      ["a", "b"]).2.2.2.2.2.1,
   (C18_sequence_assignment node.of_string (node.default.push_back (node.of_int 9))
      ["a", "b"]).2.2.2.2.2.2 1 (by decide)⟩

/-! ## The children of a built node are built -/

theorem map_insert_mem {α : Type} (k : String) (v : α) :
    ∀ (m : List (String × α)) (p : String × α), p ∈ map_insert k v m → p = (k, v) ∨ p ∈ m
  | [], p, h => by
    simp only [map_insert, List.mem_singleton] at h
    exact Or.inl h
  | (k0, v0) :: rest, p, h => by
    simp only [map_insert] at h
    split at h
    · rcases List.mem_cons.mp h with h | h
      · exact Or.inl h
      · exact Or.inr h
    · split at h
      · rcases List.mem_cons.mp h with h | h
        · exact Or.inr (h ▸ List.mem_cons_self _ _)
        · rcases map_insert_mem k v rest p h with h | h
          · exact Or.inl h
          · exact Or.inr (List.mem_cons_of_mem _ h)
      · exact Or.inr h

theorem map_set_mem {α : Type} (k : String) (v : α) :
    ∀ (m : List (String × α)) (p : String × α), p ∈ map_set k v m → p.2 = v ∨ p ∈ m
  | [], p, h => by simp [map_set] at h
  | (k0, v0) :: rest, p, h => by
    simp only [map_set] at h
    split at h
    · rcases List.mem_cons.mp h with h | h
      · exact Or.inl (by rw [h])
      · exact Or.inr (List.mem_cons_of_mem _ h)
    · rcases List.mem_cons.mp h with h | h
      · exact Or.inr (h ▸ List.mem_cons_self _ _)
      · rcases map_set_mem k v rest p h with h | h
        · exact Or.inl h
        · exact Or.inr (List.mem_cons_of_mem _ h)

theorem map_foldl_insert_mem {V : Type} (conv : V → node) :
    ∀ (v : List (String × V)) (acc : List (String × node)) (p : String × node),
      p ∈ v.foldl (fun acc it => map_insert it.1 (conv it.2) acc) acc →
      (∃ q ∈ v, p.2 = conv q.2) ∨ p ∈ acc
  | [], acc, p, h => Or.inr h
  | it :: rest, acc, p, h => by
    simp only [List.foldl_cons] at h
    rcases map_foldl_insert_mem conv rest _ p h with ⟨q, hq, hp⟩ | h
    · exact Or.inl ⟨q, List.mem_cons_of_mem _ hq, hp⟩
    · rcases map_insert_mem _ _ acc p h with h | h
      · exact Or.inl ⟨it, List.mem_cons_self _ _, by rw [h]⟩
      · exact Or.inr h

theorem children_all_nil (P : node → Prop) (n : node) (ha : n.array_value = [])
    (ho : n.object_value = []) : n.children_all P := by
  constructor
  · intro c hc; rw [ha] at hc; cases hc
  · intro p hp; rw [ho] at hp; cases hp

theorem Built.retag_array {m : node} (hm : Built m) (ht : m.value_type ≠ NodeType.ARRAY) :
    Built { m with value_type := NodeType.ARRAY, number_type := NodeNumberType.N,
                   string_value := "", object_value := [] } := by
  have h : (m.push_back (Ref.other node.default)).clear =
      { m with value_type := NodeType.ARRAY, number_type := NodeNumberType.N,
               string_value := "", object_value := [] } := by
    have ha : m.array_value = [] := hm.inactive_empty.2.2 ht
    obtain ⟨vt, nt, st, s, o, a⟩ := m
    simp only at ha ht
    subst ha
    simp [node.push_back, node.clear, ht]
  rw [← h]
  exact Built.clear (Built.push_back Built.default hm)

theorem Built.retag_object {m : node} (hm : Built m) (ht : m.value_type ≠ NodeType.OBJECT) :
    Built { m with value_type := NodeType.OBJECT, number_type := NodeNumberType.N,
                   string_value := "", array_value := [] } := by
  have h : (m.insert_key "" (Ref.other node.default)).clear =
      { m with value_type := NodeType.OBJECT, number_type := NodeNumberType.N,
               string_value := "", array_value := [] } := by
    have ho : m.object_value = [] := hm.inactive_empty.2.1 ht
    obtain ⟨vt, nt, st, s, o, a⟩ := m
    simp only at ho ht
    subst ho
    simp [node.insert_key, node.clear, ht]
  rw [← h]
  exact Built.clear (Built.insert_key "" Built.default hm)

theorem Built.children {n : node} (h : Built n) : n.children_all Built := by
  induction h with
  | @assign_list T conv v m hv _ _ =>
    constructor
    · intro c hc
      have harr : (m.assign_list conv v).array_value = v.map conv := by
        simp only [node.assign_list]
        rw [foldl_push_eq_map conv v []]
        simp
      rw [harr] at hc
      obtain ⟨t, ht, rfl⟩ := List.mem_map.mp hc
      exact hv t ht
    · intro p hp
      cases hp
  | @assign_map V conv v m hv _ _ =>
    constructor
    · intro c hc
      cases hc
    · intro p hp
      rcases map_foldl_insert_mem conv v [] p hp with ⟨q, hq, hpq⟩ | h
      · rw [hpq]; exact hv q hq
      · cases h
  | copy _ ih => exact ih
  | assign_copy _ _ ihc _ => exact ihc
  | @clear m _ ih =>
    unfold node.clear
    split
    · exact ⟨(fun c hc => by cases hc), ih.2⟩
    · split
      · exact ⟨ih.1, (fun p hp => by cases hp)⟩
      · split
        · exact ih
        · exact ih
  | @push_back x m hx _ _ ih =>
    unfold node.push_back
    simp only [node.copy_eq, Ref.read_other]
    split
    · refine ⟨?_, ih.2⟩
      intro c hc
      rcases List.mem_append.mp hc with hc | hc
      · exact ih.1 c hc
      · rw [List.mem_singleton.mp hc]; exact hx
    · refine ⟨?_, (fun p hp => by cases hp)⟩
      intro c hc
      rw [List.mem_singleton.mp hc]; exact hx
  | @insert x m hx _ _ ih =>
    unfold node.insert
    simp only [node.copy_eq, Ref.read_other]
    split
    · refine ⟨?_, ih.2⟩
      intro c hc
      rcases List.mem_append.mp hc with hc | hc
      · exact ih.1 c hc
      · rw [List.mem_singleton.mp hc]; exact hx
    · refine ⟨?_, (fun p hp => by cases hp)⟩
      intro c hc
      rw [List.mem_singleton.mp hc]; exact hx
  | @insert_at pos x m r hx _ hr _ ih =>
    unfold node.insert_at at hr
    simp only [node.copy_eq, Ref.read_other] at hr
    split at hr
    · split at hr
      · cases hr
        refine ⟨?_, ih.2⟩
        intro c hc
        rcases List.mem_append.mp hc with hc | hc
        · exact ih.1 c (List.mem_of_mem_take hc)
        · rcases List.mem_cons.mp hc with hc | hc
          · rw [hc]; exact hx
          · exact ih.1 c (List.mem_of_mem_drop hc)
      · cases hr
    · cases hr
      refine ⟨?_, (fun p hp => by cases hp)⟩
      intro c hc
      rw [List.mem_singleton.mp hc]; exact hx
  | @insert_key key x m hx _ _ ih =>
    unfold node.insert_key
    simp only [node.copy_eq, Ref.read_other]
    split
    · refine ⟨ih.1, ?_⟩
      intro p hp
      rcases map_insert_mem key x m.object_value p hp with h | h
      · rw [h]; exact hx
      · exact ih.2 p h
    · refine ⟨(fun c hc => by cases hc), ?_⟩
      intro p hp
      rw [List.mem_singleton.mp hp]; exact hx
  | @push_back_self m hm ih =>
    unfold node.push_back
    simp only [node.copy_eq, Ref.read_self]
    split
    · refine ⟨?_, ih.2⟩
      intro c hc
      rcases List.mem_append.mp hc with hc | hc
      · exact ih.1 c hc
      · rw [List.mem_singleton.mp hc]; exact hm
    · rename_i ht
      refine ⟨?_, (fun p hp => by cases hp)⟩
      intro c hc
      rw [List.mem_singleton.mp hc]; exact hm.retag_array ht
  | @insert_self m hm ih =>
    unfold node.insert
    simp only [node.copy_eq, Ref.read_self]
    split
    · refine ⟨?_, ih.2⟩
      intro c hc
      rcases List.mem_append.mp hc with hc | hc
      · exact ih.1 c hc
      · rw [List.mem_singleton.mp hc]; exact hm
    · rename_i ht
      refine ⟨?_, (fun p hp => by cases hp)⟩
      intro c hc
      rw [List.mem_singleton.mp hc]; exact hm.retag_array ht
  | @insert_at_self pos m r hm hr ih =>
    unfold node.insert_at at hr
    simp only [node.copy_eq, Ref.read_self] at hr
    split at hr
    · split at hr
      · cases hr
        refine ⟨?_, ih.2⟩
        intro c hc
        rcases List.mem_append.mp hc with hc | hc
        · exact ih.1 c (List.mem_of_mem_take hc)
        · rcases List.mem_cons.mp hc with hc | hc
          · rw [hc]; exact hm
          · exact ih.1 c (List.mem_of_mem_drop hc)
      · cases hr
    · rename_i ht
      cases hr
      refine ⟨?_, (fun p hp => by cases hp)⟩
      intro c hc
      rw [List.mem_singleton.mp hc]; exact hm.retag_array ht
  | @insert_key_self key m hm ih =>
    unfold node.insert_key
    simp only [node.copy_eq, Ref.read_self]
    split
    · refine ⟨ih.1, ?_⟩
      intro p hp
      rcases map_insert_mem key m m.object_value p hp with h | h
      · rw [h]; exact hm
      · exact ih.2 p h
    · rename_i ht
      refine ⟨(fun c hc => by cases hc), ?_⟩
      intro p hp
      rw [List.mem_singleton.mp hp]; exact hm.retag_object ht
  | @subscript key m _ ih =>
    unfold node.subscript
    by_cases ht : m.value_type = NodeType.OBJECT
    · simp only [ne_eq, ht, not_true_eq_false, if_false]
      refine ⟨ih.1, ?_⟩
      intro p hp
      rcases map_insert_mem key node.default m.object_value p hp with h | h
      · rw [h]; exact Built.default
      · exact ih.2 p h
    · simp only [ne_eq, ht, not_false_eq_true, if_true]
      refine ⟨(fun c hc => by cases hc), ?_⟩
      intro p hp
      rcases map_insert_mem key node.default m.object_value p hp with h | h
      · rw [h]; exact Built.default
      · exact ih.2 p h
  | @set_key key c m hc _ hp _ ih =>
    refine ⟨ih.1, ?_⟩
    intro p hp'
    rcases map_set_mem key c m.object_value p hp' with h | h
    · rw [h]; exact hc
    · exact ih.2 p h
  | @set_at id c m hc _ hlt _ ih =>
    refine ⟨?_, ih.2⟩
    intro x hx
    rcases List.mem_or_eq_of_mem_set hx with h | h
    · exact ih.1 x h
    · rw [h]; exact hc
  | _ => exact children_all_nil _ _ rfl rfl

theorem Built.descendant {n d : node} (h : Built n) (hd : Descendant n d) : Built d := by
  induction hd with
  | self => exact h
  | element _ hc ih => exact ih.children.1 _ hc
  | entry _ hc ih => exact ih.children.2 _ hc

/-! ## C21: tag and number kind agree everywhere in a built tree -/

theorem emit_case_number_default (ba : Bool) (fl : FloatLib) (n : node)
    (h : emit_case n = EmitCase.number_default) :
    n.value_type = NodeType.NUMBER ∧ n.number_type = NodeNumberType.N ∧
      emit ba fl n = Except.ok "NUMBER" := by
  obtain ⟨vt, nt, st, s, o, a⟩ := n
  cases vt <;> cases nt <;> simp [emit_case] at h
  exact ⟨rfl, rfl, by simp only [emit, emit_number]⟩

theorem emit_case_ne_node_default (n : node) : emit_case n ≠ EmitCase.node_default := by
  obtain ⟨vt, nt, st, s, o, a⟩ := n
  cases vt <;> cases nt <;> simp [emit_case]

theorem emit_of_number (ba : Bool) (fl : FloatLib) (n : node) (ht : n.value_type = NodeType.NUMBER)
    (hk : n.number_type ≠ NodeNumberType.N) (hs : n.storage.kind = n.number_type) :
    emit ba fl n = Except.ok (n.storage.text ba fl) := by
  obtain ⟨vt, nt, st, s, o, a⟩ := n
  simp only at ht hk hs
  subst ht
  subst hs
  cases st <;> first
    | exact absurd rfl hk
    | simp only [emit, emit_number, Storage.kind, Storage.text]

/-- C21: in a tree built by the public operations, every node (the root and each
descendant) has the number kind `N` exactly when its tag is not Number; so `operator<<`
never takes a `default:` case for it (the ones that write `NUMBER` and `NODE`), and a
number emits the text of the member it holds. -/
theorem C21_number_kind_invariant (ba : Bool) (fl : FloatLib) (n d : node) (hb : Built n)
    (hd : Descendant n d) :
    (d.number_type = NodeNumberType.N ↔ d.value_type ≠ NodeType.NUMBER) ∧
    emit_case d ≠ EmitCase.number_default ∧
    emit_case d ≠ EmitCase.node_default ∧
    (d.value_type = NodeType.NUMBER →
      d.storage.kind = d.number_type ∧ emit ba fl d = Except.ok (d.storage.text ba fl)) := by
  have hag := (hb.descendant hd).scalar_agrees
  have hiff : d.number_type = NodeNumberType.N ↔ d.value_type ≠ NodeType.NUMBER := by
    constructor
    · intro hN ht
      exact (hag.1 ht).1 hN
    · exact hag.2.1
  refine ⟨hiff, ?_, ?_, ?_⟩
  · intro hc
    obtain ⟨ht, hN, _⟩ := emit_case_number_default ba fl d hc
    exact (hag.1 ht).1 hN
  · exact emit_case_ne_node_default d
  · intro ht
    exact ⟨(hag.1 ht).2, emit_of_number ba fl d ht (hag.1 ht).1 (hag.1 ht).2⟩

theorem C21_witness :
    emit_case (node.of_int 7) ≠ EmitCase.number_default ∧
    ((node.of_int 7).number_type = NodeNumberType.N ↔
      (node.of_int 7).value_type ≠ NodeType.NUMBER) :=
  ⟨(C21_number_kind_invariant false ⟨fun _ _ => "", fun _ _ _ => 0⟩
      (node.default.modify "a" (fun c => c.assign_int 7)) (node.of_int 7)
      (by
        rw [modify_default]
        exact Built.set_key "a" (Built.of_int 7) (Built.subscript "a" Built.default) rfl)
      (Descendant.entry Descendant.self (by rw [modify_default]; exact List.mem_singleton.mpr rfl))).2.1,
   (C21_number_kind_invariant false ⟨fun _ _ => "", fun _ _ _ => 0⟩
      (node.default.push_back (node.of_int 7)) (node.of_int 7)
      (Built.push_back (Built.of_int 7) Built.default)
      (Descendant.element Descendant.self (List.mem_singleton.mpr rfl))).1⟩

/-! ## C22: inactive payloads are empty everywhere in a built tree -/

end serde
